import Mathlib

/-!
Verification development for the MCCC message bus
(`message_bus.hpp`, `protocol.hpp`, `component.hpp`).

The C++ code is shallowly embedded: the bus state is a Lean structure,
machine integers are `Nat` reduced modulo `2^32` / `2^64` exactly where the
C++ types wrap, and every operation is a pure state-passing function whose
control flow mirrors the source line by line.  Sequential executions are
modelled (each `Publish` / `ProcessBatch` / `ProcessOne` call is one atomic
step); the lock-free CAS loop of `PublishInternal` degenerates in a
sequential execution to a single successful CAS, which is how it is
embedded.  `ReportError` calls are recorded as an event list (the C++
invokes the registered user callback, when present, at exactly these
points).  Dispatch of a message records the `(entry id, envelope)` pairs of
the callback invocations that `DispatchMessage` performs.
-/

namespace MCCC

/-- `2^32`, the modulus of the `uint32_t` position arithmetic. -/
def U32 : Nat := 4294967296

/-- `2^64`, the modulus of the `uint64_t` counters and of `size_t`. -/
def U64 : Nat := 18446744073709551616

/-- `static_cast<size_t>(-1)`, the sentinel callback id for a failed
`Subscribe` registration. -/
def SIZE_SENTINEL : Nat := U64 - 1

/-- `uint32_t` addition (`a + b` with 32-bit wraparound). -/
def add32 (a b : Nat) : Nat := (a + b) % U32

/-- `uint32_t` subtraction `a - b` (two's-complement wraparound), for
operands already reduced below `2^32`. -/
def sub32 (a b : Nat) : Nat := (a + (U32 - b)) % U32

/-- `uint64_t` addition with wraparound (`fetch_add` semantics). -/
def add64 (a b : Nat) : Nat := (a + b) % U64

/-- `pos & BUFFER_MASK` where `BUFFER_MASK = BUFFER_SIZE - 1`; the slot
index of a ring position (`BUFFER_SIZE` is `CAP` here). -/
def bufferIndex (CAP pos : Nat) : Nat := pos &&& (CAP - 1)

/-- `MCCC_MAX_MESSAGE_TYPES` (default 8): hard cap on payload variants. -/
def MCCC_MAX_MESSAGE_TYPES : Nat := 8

/-- `MCCC_MAX_CALLBACKS_PER_TYPE` (default 16). -/
def MCCC_MAX_CALLBACKS_PER_TYPE : Nat := 16

/-- `AsyncBus::BATCH_PROCESS_SIZE`. -/
def BATCH_PROCESS_SIZE : Nat := 1024

/-- `AsyncBus::MSG_ID_WRAP_THRESHOLD = numeric_limits<uint64_t>::max() - 10000`. -/
def MSG_ID_WRAP_THRESHOLD : Nat := U64 - 1 - 10000

/-- `AsyncBus::LOW_PRIORITY_THRESHOLD = (MAX_QUEUE_DEPTH * 60U) / 100U`,
parameterised by the compile-time capacity `CAP = MCCC_QUEUE_DEPTH`. -/
def LOW_PRIORITY_THRESHOLD (CAP : Nat) : Nat := CAP * 60 / 100

/-- `AsyncBus::MEDIUM_PRIORITY_THRESHOLD = (MAX_QUEUE_DEPTH * 80U) / 100U`. -/
def MEDIUM_PRIORITY_THRESHOLD (CAP : Nat) : Nat := CAP * 80 / 100

/-- `AsyncBus::HIGH_PRIORITY_THRESHOLD = (MAX_QUEUE_DEPTH * 99U) / 100U`. -/
def HIGH_PRIORITY_THRESHOLD (CAP : Nat) : Nat := CAP * 99 / 100

/-- `AsyncBus::BACKPRESSURE_WARNING_THRESHOLD = (MAX_QUEUE_DEPTH * 75U) / 100U`. -/
def BACKPRESSURE_WARNING_THRESHOLD (CAP : Nat) : Nat := CAP * 75 / 100

/-- `AsyncBus::BACKPRESSURE_CRITICAL_THRESHOLD = (MAX_QUEUE_DEPTH * 90U) / 100U`. -/
def BACKPRESSURE_CRITICAL_THRESHOLD (CAP : Nat) : Nat := CAP * 90 / 100

/-- `mccc::MessagePriority`. -/
inductive MessagePriority
  | LOW
  | MEDIUM
  | HIGH
deriving DecidableEq

/-- `AsyncBus::PerformanceMode`. -/
inductive PerformanceMode
  | FULL_FEATURED
  | BARE_METAL
  | NO_STATS
deriving DecidableEq

/-- `mccc::BusError`. -/
inductive BusError
  | QUEUE_FULL
  | INVALID_MESSAGE
  | PROCESSING_ERROR
  | OVERFLOW_DETECTED
deriving DecidableEq

/-- `mccc::BackpressureLevel`. -/
inductive BackpressureLevel
  | NORMAL
  | WARNING
  | CRITICAL
  | FULL
deriving DecidableEq

/-- Local `bare_metal` flag of `PublishInternal` / `ProcessBatch`:
`mode == PerformanceMode::BARE_METAL`. -/
def isBareMetal : PerformanceMode → Bool
  | PerformanceMode.BARE_METAL => true
  | _ => false

/-- Local `no_stats` flag: `bare_metal || (mode == PerformanceMode::NO_STATS)`. -/
def isNoStats : PerformanceMode → Bool
  | PerformanceMode.BARE_METAL => true
  | PerformanceMode.NO_STATS => true
  | PerformanceMode.FULL_FEATURED => false

/-- `mccc::MessageHeader`. -/
structure MessageHeader where
  msg_id : Nat
  timestamp_us : Nat
  sender_id : Nat
  priority : MessagePriority
deriving DecidableEq

/-- `mccc::MessageEnvelope<PayloadVariant>`; the payload type is a
parameter `π` together with a discriminant function (the variant index). -/
structure MessageEnvelope (π : Type) where
  header : MessageHeader
  payload : π
deriving DecidableEq

/-- `mccc::BusStatistics` (atomic `uint64_t` counters). -/
structure BusStatistics where
  messages_published : Nat
  messages_dropped : Nat
  messages_processed : Nat
  processing_errors : Nat
  high_priority_published : Nat
  medium_priority_published : Nat
  low_priority_published : Nat
  high_priority_dropped : Nat
  medium_priority_dropped : Nat
  low_priority_dropped : Nat
  admission_recheck_count : Nat
  stale_cache_depth_delta : Nat
deriving DecidableEq

/-- The all-zero statistics block (`BusStatistics` default / after `Reset`). -/
def zeroStatistics : BusStatistics :=
  { messages_published := 0
    messages_dropped := 0
    messages_processed := 0
    processing_errors := 0
    high_priority_published := 0
    medium_priority_published := 0
    low_priority_published := 0
    high_priority_dropped := 0
    medium_priority_dropped := 0
    low_priority_dropped := 0
    admission_recheck_count := 0
    stale_cache_depth_delta := 0 }

/-- `AsyncBus::CallbackEntry`; `callback` records whether a non-null
`std::function` is stored. -/
structure CallbackEntry where
  id : Nat
  callback : Bool
  active : Bool
deriving DecidableEq

/-- `AsyncBus::CallbackSlot`; `entries` models the
`std::array<CallbackEntry, MCCC_MAX_CALLBACKS_PER_TYPE>` in index order. -/
structure CallbackSlot where
  entries : List CallbackEntry
  count : Nat
deriving DecidableEq

/-- A default-constructed (inactive) callback entry. -/
def emptyCallbackEntry : CallbackEntry := { id := 0, callback := false, active := false }

/-- A default-constructed callback slot (16 inactive entries, count 0). -/
def emptyCallbackSlot : CallbackSlot :=
  { entries := List.replicate MCCC_MAX_CALLBACKS_PER_TYPE emptyCallbackEntry, count := 0 }

/-- `mccc::SubscriptionHandle`. -/
structure SubscriptionHandle where
  type_index : Nat
  callback_id : Nat
deriving DecidableEq

/-- `AsyncBus::RingBufferNode`. -/
structure RingBufferNode (π : Type) where
  sequence : Nat
  envelope : MessageEnvelope π

/-- The `AsyncBus<PayloadVariant>` state.  `ring_buffer` is read at slot
indices below `CAP` only; `callback_table` at indices below
`MCCC_MAX_MESSAGE_TYPES` only.  `error_callback` records whether a user
error callback is registered. -/
structure AsyncBus (π : Type) where
  ring_buffer : Nat → RingBufferNode π
  producer_pos : Nat
  cached_consumer_pos : Nat
  consumer_pos : Nat
  next_msg_id : Nat
  next_callback_id : Nat
  stats : BusStatistics
  callback_table : Nat → CallbackSlot
  error_callback : Bool
  performance_mode : PerformanceMode

/-- Point update of the ring array. -/
def updateRing {π : Type} (r : Nat → RingBufferNode π) (i : Nat) (n : RingBufferNode π) :
    Nat → RingBufferNode π :=
  fun j => if j = i then n else r j

/-- Point update of the callback table. -/
def updateTable (t : Nat → CallbackSlot) (i : Nat) (s : CallbackSlot) : Nat → CallbackSlot :=
  fun j => if j = i then s else t j

/-- The freshly constructed bus (`AsyncBus` constructor): positions zero,
`next_msg_id = 1`, `next_callback_id = 1`, slot `i` has `sequence = i`,
empty callback table, `FULL_FEATURED` mode.  `d` is the default-constructed
payload (first variant alternative) filling the pre-allocated envelopes. -/
def initialBus (π : Type) (d : π) : AsyncBus π :=
  { ring_buffer := fun i =>
      { sequence := i
        envelope :=
          { header := { msg_id := 0, timestamp_us := 0, sender_id := 0
                        priority := MessagePriority.MEDIUM }
            payload := d } }
    producer_pos := 0
    cached_consumer_pos := 0
    consumer_pos := 0
    next_msg_id := 1
    next_callback_id := 1
    stats := zeroStatistics
    callback_table := fun _ => emptyCallbackSlot
    error_callback := false
    performance_mode := PerformanceMode.FULL_FEATURED }

/-- `AsyncBus::GetThresholdForPriority`. -/
def GetThresholdForPriority (CAP : Nat) : MessagePriority → Nat
  | MessagePriority.HIGH => HIGH_PRIORITY_THRESHOLD CAP
  | MessagePriority.MEDIUM => MEDIUM_PRIORITY_THRESHOLD CAP
  | MessagePriority.LOW => LOW_PRIORITY_THRESHOLD CAP

/-- `AsyncBus::UpdatePriorityPublishedStats`. -/
def UpdatePriorityPublishedStats (st : BusStatistics) : MessagePriority → BusStatistics
  | MessagePriority.HIGH =>
      { st with high_priority_published := add64 st.high_priority_published 1 }
  | MessagePriority.MEDIUM =>
      { st with medium_priority_published := add64 st.medium_priority_published 1 }
  | MessagePriority.LOW =>
      { st with low_priority_published := add64 st.low_priority_published 1 }

/-- `AsyncBus::UpdatePriorityDroppedStats`. -/
def UpdatePriorityDroppedStats (st : BusStatistics) : MessagePriority → BusStatistics
  | MessagePriority.HIGH =>
      { st with high_priority_dropped := add64 st.high_priority_dropped 1 }
  | MessagePriority.MEDIUM =>
      { st with medium_priority_dropped := add64 st.medium_priority_dropped 1 }
  | MessagePriority.LOW =>
      { st with low_priority_dropped := add64 st.low_priority_dropped 1 }

/-- Which return path a `PublishInternal` call took (a ghost observation of
the C++ control flow; the C++ return value is `outcome = published`). -/
inductive PublishOutcome
  | published
  | overflowRefused
  | admissionRejected
  | slotRejected
deriving DecidableEq

/-- Result of a `PublishInternal` call: outcome tag, post-state and the
list of `ReportError` calls made (error kind with the `msg_id` argument). -/
structure PublishResult (π : Type) where
  outcome : PublishOutcome
  bus : AsyncBus π
  reported : List (BusError × Nat)

/-- The C++ `bool` return value of a publish call. -/
def PublishResult.ok {π : Type} (r : PublishResult π) : Bool :=
  r.outcome = PublishOutcome.published

/-- The slot-claim phase of `AsyncBus::PublishInternal` (lines from the
claim loop to the final `return true`): in a sequential execution the CAS
`producer_pos_.compare_exchange_weak(prod_pos, prod_pos+1)` succeeds on the
first iteration, so the loop body runs once.  Writes the envelope, bumps
the slot sequence, and updates the publish statistics unless `no_stats`. -/
def publishSlotPhase (π : Type) (CAP : Nat) (bus : AsyncBus π) (payload : π)
    (sender_id timestamp_us : Nat) (priority : MessagePriority) (no_stats : Bool) :
    PublishResult π :=
  let prod_pos := bus.producer_pos
  let idx := bufferIndex CAP prod_pos
  let node := bus.ring_buffer idx
  if node.sequence ≠ prod_pos then
    let droppedStats :=
      UpdatePriorityDroppedStats
        { bus.stats with messages_dropped := add64 bus.stats.messages_dropped 1 } priority
    { outcome := PublishOutcome.slotRejected
      bus := if no_stats then bus else { bus with stats := droppedStats }
      reported := if no_stats then [] else [(BusError.QUEUE_FULL, bus.next_msg_id)] }
  else
    let assigned_id := bus.next_msg_id
    let node' : RingBufferNode π :=
      { sequence := add32 prod_pos 1
        envelope :=
          { header := { msg_id := assigned_id, timestamp_us := timestamp_us
                        sender_id := sender_id, priority := priority }
            payload := payload } }
    let bus' : AsyncBus π :=
      { bus with
          producer_pos := add32 prod_pos 1
          next_msg_id := add64 bus.next_msg_id 1
          ring_buffer := updateRing bus.ring_buffer idx node' }
    let publishedStats :=
      UpdatePriorityPublishedStats
        { bus'.stats with messages_published := add64 bus'.stats.messages_published 1 } priority
    { outcome := PublishOutcome.published
      bus := if no_stats then bus' else { bus' with stats := publishedStats }
      reported := [] }

/-- `AsyncBus::PublishInternal`. -/
def publishInternal (π : Type) (CAP : Nat) (bus : AsyncBus π) (payload : π)
    (sender_id timestamp_us : Nat) (priority : MessagePriority) : PublishResult π :=
  let bare_metal := isBareMetal bus.performance_mode
  let no_stats := isNoStats bus.performance_mode
  let msg_id := bus.next_msg_id
  if msg_id ≥ MSG_ID_WRAP_THRESHOLD then
    { outcome := PublishOutcome.overflowRefused
      bus := bus
      reported := if no_stats then [] else [(BusError.OVERFLOW_DETECTED, msg_id)] }
  else if bare_metal then
    publishSlotPhase π CAP bus payload sender_id timestamp_us priority no_stats
  else
    let threshold := GetThresholdForPriority CAP priority
    let prod := bus.producer_pos
    let cached_cons := bus.cached_consumer_pos
    let estimated_depth := sub32 prod cached_cons
    if estimated_depth ≥ threshold then
      let real_cons := bus.consumer_pos
      let real_depth := sub32 prod real_cons
      let bus₁ := { bus with cached_consumer_pos := real_cons }
      let bus₂ :=
        if no_stats then bus₁
        else
          { bus₁ with stats :=
              { bus₁.stats with
                  admission_recheck_count := add64 bus₁.stats.admission_recheck_count 1
                  stale_cache_depth_delta :=
                    if estimated_depth > real_depth then
                      add64 bus₁.stats.stale_cache_depth_delta (estimated_depth - real_depth)
                    else bus₁.stats.stale_cache_depth_delta } }
      if real_depth ≥ threshold then
        let droppedStats :=
          UpdatePriorityDroppedStats
            { bus₂.stats with messages_dropped := add64 bus₂.stats.messages_dropped 1 } priority
        { outcome := PublishOutcome.admissionRejected
          bus := if no_stats then bus₂ else { bus₂ with stats := droppedStats }
          reported := if no_stats then [] else [(BusError.QUEUE_FULL, msg_id)] }
      else
        publishSlotPhase π CAP bus₂ payload sender_id timestamp_us priority no_stats
    else
      publishSlotPhase π CAP bus payload sender_id timestamp_us priority no_stats

/-- `AsyncBus::Publish` (MEDIUM priority; `timestamp_us` is the
`GetTimestampUs()` clock sample, supplied here as an input). -/
def Publish (π : Type) (CAP : Nat) (bus : AsyncBus π) (payload : π)
    (sender_id timestamp_us : Nat) : PublishResult π :=
  publishInternal π CAP bus payload sender_id timestamp_us MessagePriority.MEDIUM

/-- `AsyncBus::PublishWithPriority`. -/
def PublishWithPriority (π : Type) (CAP : Nat) (bus : AsyncBus π) (payload : π)
    (sender_id timestamp_us : Nat) (priority : MessagePriority) : PublishResult π :=
  publishInternal π CAP bus payload sender_id timestamp_us priority

/-- `AsyncBus::PublishFast` (MEDIUM priority, caller-supplied timestamp). -/
def PublishFast (π : Type) (CAP : Nat) (bus : AsyncBus π) (payload : π)
    (sender_id timestamp_us : Nat) : PublishResult π :=
  publishInternal π CAP bus payload sender_id timestamp_us MessagePriority.MEDIUM

/-- `AsyncBus::SetPerformanceMode`. -/
def SetPerformanceMode (π : Type) (bus : AsyncBus π) (mode : PerformanceMode) : AsyncBus π :=
  { bus with performance_mode := mode }

/-- `AsyncBus::SetErrorCallback` (`callback` records whether the registered
pointer is non-null). -/
def SetErrorCallback (π : Type) (bus : AsyncBus π) (callback : Bool) : AsyncBus π :=
  { bus with error_callback := callback }

/-- `AsyncBus::ResetStatistics` (`BusStatistics::Reset`). -/
def ResetStatistics (π : Type) (bus : AsyncBus π) : AsyncBus π :=
  { bus with stats := zeroStatistics }

/-- `AsyncBus::DispatchMessage`: the list of callback invocations performed,
as `(entry id, envelope)` pairs in entry order.  `pidx` is the compile-time
variant index of the payload (`envelope.payload.index()`). -/
def DispatchMessage (π : Type) (pidx : π → Nat) (bus : AsyncBus π)
    (envelope : MessageEnvelope π) : List (Nat × MessageEnvelope π) :=
  let type_idx := pidx envelope.payload
  if type_idx ≥ MCCC_MAX_MESSAGE_TYPES then []
  else
    let slot := bus.callback_table type_idx
    if slot.count = 0 then []
    else (slot.entries.filter (fun e => e.active)).map (fun e => (e.id, envelope))

/-- `AsyncBus::DispatchMessageBareMetal`: identical invocation behaviour
(it only skips taking the shared lock). -/
def DispatchMessageBareMetal (π : Type) (pidx : π → Nat) (bus : AsyncBus π)
    (envelope : MessageEnvelope π) : List (Nat × MessageEnvelope π) :=
  let type_idx := pidx envelope.payload
  if type_idx ≥ MCCC_MAX_MESSAGE_TYPES then []
  else
    let slot := bus.callback_table type_idx
    if slot.count = 0 then []
    else (slot.entries.filter (fun e => e.active)).map (fun e => (e.id, envelope))

/-- `AsyncBus::ProcessOneInBatch`: returns whether a message was consumed,
the post-state (only the ring slot changes) and the dispatch invocations. -/
def ProcessOneInBatch (π : Type) (pidx : π → Nat) (CAP : Nat) (bus : AsyncBus π)
    (cons_pos : Nat) (bare_metal : Bool) :
    Bool × AsyncBus π × List (Nat × MessageEnvelope π) :=
  let idx := bufferIndex CAP cons_pos
  let node := bus.ring_buffer idx
  let expected_seq := add32 cons_pos 1
  if node.sequence ≠ expected_seq then (false, bus, [])
  else
    let events :=
      if bare_metal then DispatchMessageBareMetal π pidx bus node.envelope
      else DispatchMessage π pidx bus node.envelope
    let node' := { node with sequence := add32 cons_pos CAP }
    (true, { bus with ring_buffer := updateRing bus.ring_buffer idx node' }, events)

/-- The `for` loop of `AsyncBus::ProcessBatch`, with the remaining iteration
budget as fuel (initially `BATCH_PROCESS_SIZE`).  Returns the number of
messages processed, the final local `cons_pos`, the post-state, and the
dispatch invocations in order. -/
def batchLoop (π : Type) (pidx : π → Nat) (CAP : Nat) :
    Nat → AsyncBus π → Nat → Bool → Nat × Nat × AsyncBus π × List (Nat × MessageEnvelope π)
  | 0, bus, cons_pos, _ => (0, cons_pos, bus, [])
  | fuel + 1, bus, cons_pos, bare_metal =>
    match ProcessOneInBatch π pidx CAP bus cons_pos bare_metal with
    | (false, _, _) => (0, cons_pos, bus, [])
    | (true, bus', ev) =>
      let rest := batchLoop π pidx CAP fuel bus' (add32 cons_pos 1) bare_metal
      (rest.1 + 1, rest.2.1, rest.2.2.1, ev ++ rest.2.2.2)

/-- `AsyncBus::ProcessBatch`: returns the processed count, the post-state
and the dispatch invocations. -/
def ProcessBatch (π : Type) (pidx : π → Nat) (CAP : Nat) (bus : AsyncBus π) :
    Nat × AsyncBus π × List (Nat × MessageEnvelope π) :=
  let bare_metal := isBareMetal bus.performance_mode
  let no_stats := isNoStats bus.performance_mode
  let r := batchLoop π pidx CAP BATCH_PROCESS_SIZE bus bus.consumer_pos bare_metal
  let processed := r.1
  let bus' := r.2.2.1
  if processed > 0 then
    let bus'' := { bus' with consumer_pos := r.2.1 }
    let bus''' :=
      if no_stats then bus''
      else
        { bus'' with stats :=
            { bus''.stats with
                messages_processed := add64 bus''.stats.messages_processed processed } }
    (processed, bus''', r.2.2.2)
  else (processed, bus', r.2.2.2)

/-- `AsyncBus::ProcessOneAtPos` (always updates the statistics and stores
`consumer_pos` on success; this private helper is not mode-aware). -/
def ProcessOneAtPos (π : Type) (pidx : π → Nat) (CAP : Nat) (bus : AsyncBus π)
    (cons_pos : Nat) : Bool × AsyncBus π × List (Nat × MessageEnvelope π) :=
  let idx := bufferIndex CAP cons_pos
  let node := bus.ring_buffer idx
  let expected_seq := add32 cons_pos 1
  if node.sequence ≠ expected_seq then (false, bus, [])
  else
    let events := DispatchMessage π pidx bus node.envelope
    let node' := { node with sequence := add32 cons_pos CAP }
    let bus' :=
      { bus with
          ring_buffer := updateRing bus.ring_buffer idx node'
          consumer_pos := add32 cons_pos 1
          stats :=
            { bus.stats with
                messages_processed := add64 bus.stats.messages_processed 1 } }
    (true, bus', events)

/-- `AsyncBus::ProcessOne`. -/
def ProcessOne (π : Type) (pidx : π → Nat) (CAP : Nat) (bus : AsyncBus π) :
    Bool × AsyncBus π × List (Nat × MessageEnvelope π) :=
  ProcessOneAtPos π pidx CAP bus bus.consumer_pos

/-- `AsyncBus::QueueDepth` (`prod - cons` in `uint32_t` arithmetic). -/
def QueueDepth (π : Type) (bus : AsyncBus π) : Nat :=
  sub32 bus.producer_pos bus.consumer_pos

/-- `AsyncBus::GetBackpressureLevel`. -/
def GetBackpressureLevel (π : Type) (CAP : Nat) (bus : AsyncBus π) : BackpressureLevel :=
  let depth := QueueDepth π bus
  if depth ≥ CAP then BackpressureLevel.FULL
  else if depth ≥ BACKPRESSURE_CRITICAL_THRESHOLD CAP then BackpressureLevel.CRITICAL
  else if depth ≥ BACKPRESSURE_WARNING_THRESHOLD CAP then BackpressureLevel.WARNING
  else BackpressureLevel.NORMAL

/-- The `Subscribe` entry scan: replace the first inactive entry by a fresh
active one carrying `callback_id`; `none` when every entry is active. -/
def subscribeEntries (entries : List CallbackEntry) (callback_id : Nat) :
    Option (List CallbackEntry) :=
  match entries with
  | [] => none
  | e :: rest =>
    if e.active then
      match subscribeEntries rest callback_id with
      | some rest' => some (e :: rest')
      | none => none
    else some ({ id := callback_id, callback := true, active := true } :: rest)

/-- `AsyncBus::Subscribe` for the variant whose compile-time index is
`type_idx` (the `static_assert` restricts `type_idx < MCCC_MAX_MESSAGE_TYPES`
at build time).  `next_callback_id_++` happens before the entry scan. -/
def Subscribe (π : Type) (bus : AsyncBus π) (type_idx : Nat) :
    SubscriptionHandle × AsyncBus π :=
  let slot := bus.callback_table type_idx
  let callback_id := bus.next_callback_id
  let bus₁ := { bus with next_callback_id := add64 bus.next_callback_id 1 }
  match subscribeEntries slot.entries callback_id with
  | some entries' =>
    let slot' : CallbackSlot := { entries := entries', count := add32 slot.count 1 }
    ({ type_index := type_idx, callback_id := callback_id },
     { bus₁ with callback_table := updateTable bus₁.callback_table type_idx slot' })
  | none => ({ type_index := type_idx, callback_id := SIZE_SENTINEL }, bus₁)

/-- The `Unsubscribe` entry scan: deactivate the first entry that is active
with the given id, clearing its callback; `none` when there is no match. -/
def unsubscribeEntries (entries : List CallbackEntry) (callback_id : Nat) :
    Option (List CallbackEntry) :=
  match entries with
  | [] => none
  | e :: rest =>
    if e.active ∧ e.id = callback_id then
      some ({ e with callback := false, active := false } :: rest)
    else
      match unsubscribeEntries rest callback_id with
      | some rest' => some (e :: rest')
      | none => none

/-- `AsyncBus::Unsubscribe`. -/
def Unsubscribe (π : Type) (bus : AsyncBus π) (handle : SubscriptionHandle) :
    Bool × AsyncBus π :=
  if handle.type_index ≥ MCCC_MAX_MESSAGE_TYPES then (false, bus)
  else
    let slot := bus.callback_table handle.type_index
    match unsubscribeEntries slot.entries handle.callback_id with
    | some entries' =>
      let slot' : CallbackSlot := { entries := entries', count := sub32 slot.count 1 }
      (true, { bus with callback_table := updateTable bus.callback_table handle.type_index slot' })
    | none => (false, bus)

/-- `mccc::FixedVector<T, Capacity>`: the live elements in index order
(`size()` is the list length; the raw storage beyond it is unobservable). -/
structure FixedVector (T : Type) (Capacity : Nat) where
  data : List T

/-- `FixedVector::size`. -/
def FixedVector.size {T : Type} {K : Nat} (v : FixedVector T K) : Nat := v.data.length

/-- `FixedVector::emplace_back`: fails (leaving the vector unchanged) when
`size_ >= Capacity`, otherwise placement-news the element at index `size_`
and increments `size_`. -/
def FixedVector.emplace_back {T : Type} {K : Nat} (v : FixedVector T K) (x : T) :
    Bool × FixedVector T K :=
  if v.size ≥ K then (false, v) else (true, ⟨v.data ++ [x]⟩)

/-- `FixedVector::push_back` (delegates to `emplace_back`). -/
def FixedVector.push_back {T : Type} {K : Nat} (v : FixedVector T K) (x : T) :
    Bool × FixedVector T K :=
  v.emplace_back x

/-- States reachable from the freshly-constructed bus by whole sequential
operations of the API (publishes with arbitrary argument and clock values,
batch and single-message drains, mode switches, subscription-table updates,
error-callback registration and statistics reset). -/
inductive Reachable (π : Type) (pidx : π → Nat) (CAP : Nat) (d : π) : AsyncBus π → Prop
  | init : Reachable π pidx CAP d (initialBus π d)
  | publish (s : AsyncBus π) (payload : π) (sender_id timestamp_us : Nat)
      (priority : MessagePriority) : Reachable π pidx CAP d s →
      Reachable π pidx CAP d (publishInternal π CAP s payload sender_id timestamp_us priority).bus
  | processBatch (s : AsyncBus π) : Reachable π pidx CAP d s →
      Reachable π pidx CAP d (ProcessBatch π pidx CAP s).2.1
  | processOne (s : AsyncBus π) : Reachable π pidx CAP d s →
      Reachable π pidx CAP d (ProcessOne π pidx CAP s).2.1
  | setMode (s : AsyncBus π) (mode : PerformanceMode) : Reachable π pidx CAP d s →
      Reachable π pidx CAP d (SetPerformanceMode π s mode)
  | setErrorCallback (s : AsyncBus π) (cb : Bool) : Reachable π pidx CAP d s →
      Reachable π pidx CAP d (SetErrorCallback π s cb)
  | resetStatistics (s : AsyncBus π) : Reachable π pidx CAP d s →
      Reachable π pidx CAP d (ResetStatistics π s)
  | subscribe (s : AsyncBus π) (type_idx : Nat) : Reachable π pidx CAP d s →
      Reachable π pidx CAP d (Subscribe π s type_idx).2
  | unsubscribe (s : AsyncBus π) (handle : SubscriptionHandle) : Reachable π pidx CAP d s →
      Reachable π pidx CAP d (Unsubscribe π s handle).2

/-- The per-priority drop counter of the statistics block. -/
def priorityDroppedCounter (st : BusStatistics) : MessagePriority → Nat
  | MessagePriority.HIGH => st.high_priority_dropped
  | MessagePriority.MEDIUM => st.medium_priority_dropped
  | MessagePriority.LOW => st.low_priority_dropped

/-- The per-priority publish counter of the statistics block. -/
def priorityPublishedCounter (st : BusStatistics) : MessagePriority → Nat
  | MessagePriority.HIGH => st.high_priority_published
  | MessagePriority.MEDIUM => st.medium_priority_published
  | MessagePriority.LOW => st.low_priority_published

/-- `n` successive `PublishWithPriority` calls from one producer, publishing
payloads `p 0, p 1, ...` in ascending order (`total` is the overall count,
used only to index `p`).  Returns whether every call returned `true`, and
the final state. -/
def iterPublish (π : Type) (CAP : Nat) (prio : MessagePriority)
    (sender_id timestamp_us : Nat) (p : Nat → π) (total : Nat) :
    Nat → AsyncBus π → Bool × AsyncBus π
  | 0, bus => (true, bus)
  | n + 1, bus =>
    let r := publishInternal π CAP bus (p (total - (n + 1))) sender_id timestamp_us prio
    let rest := iterPublish π CAP prio sender_id timestamp_us p total n r.bus
    (r.ok && rest.1, rest.2)

/-- Core projection equality: the three fields the ring protocol invariant
depends on. -/
def coreEq (π : Type) (s t : AsyncBus π) : Prop :=
  s.ring_buffer = t.ring_buffer ∧ s.producer_pos = t.producer_pos ∧
  s.consumer_pos = t.consumer_pos

/-- Ring protocol invariant with ghost (unwrapped) positions: `P` is the
unwrapped producer position, `C` the unwrapped value stored in
`consumer_pos`, and `Cc ∈ [C, P]` the unwrapped local consumer cursor (equal
to `C` outside a batch).  Positions `[Cc, P)` hold published, unconsumed
envelopes (`sequence = pos + 1`); positions `[P, Cc + CAP)` are
producer-ready (`sequence = pos`).  All stored values are reduced mod
`2^32`. -/
def MidWF (π : Type) (CAP : Nat) (s : AsyncBus π) (P C Cc : Nat) : Prop :=
  C ≤ Cc ∧ Cc ≤ P ∧ P ≤ C + CAP ∧
  s.producer_pos = P % U32 ∧
  s.consumer_pos = C % U32 ∧
  (∀ p, Cc ≤ p → p < P → (s.ring_buffer (p % CAP)).sequence = (p + 1) % U32) ∧
  (∀ p, P ≤ p → p < Cc + CAP → (s.ring_buffer (p % CAP)).sequence = p % U32)

/-- The ring protocol invariant of a quiescent state. -/
def WF (π : Type) (CAP : Nat) (s : AsyncBus π) : Prop :=
  ∃ P C, MidWF π CAP s P C C

/-- C3 scenario: a fresh `CAP = 128` bus with one subscriber for variant 0. -/
def c3Subscribed : AsyncBus Nat := (Subscribe Nat (initialBus Nat 0) 0).2

/-- C3 scenario: ten sequential MEDIUM publishes of `p 0 .. p 9` from
sender 7. -/
def c3Published (p : Nat → Nat) : Bool × AsyncBus Nat :=
  iterPublish Nat 128 MessagePriority.MEDIUM 7 0 p 10 10 c3Subscribed

/-- C3 scenario: the subsequent `ProcessBatch` drain. -/
def c3Result (p : Nat → Nat) : Nat × AsyncBus Nat × List (Nat × MessageEnvelope Nat) :=
  ProcessBatch Nat (fun _ => 0) 128 (c3Published p).2

/-- C4 counterexample state: a fresh bus in `NO_STATS` mode whose
`next_msg_id` has reached the wrap threshold (the spec's test hook). -/
def c4cexBus : AsyncBus Nat :=
  { initialBus Nat 0 with
      next_msg_id := MSG_ID_WRAP_THRESHOLD
      performance_mode := PerformanceMode.NO_STATS }

/-- C5 scenario: fill a `CAP = 128` ring to depth 128 with bare-metal
publishes (admission skipped, only the slot check acts). -/
def c5Fill : Bool × AsyncBus Nat :=
  iterPublish Nat 128 MessagePriority.HIGH 0 0 (fun i => i) 128 128
    (SetPerformanceMode Nat (initialBus Nat 0) PerformanceMode.BARE_METAL)

/-- C5 scenario: the exactly-full bus, back in `FULL_FEATURED` mode. -/
def c5Full : AsyncBus Nat := SetPerformanceMode Nat c5Fill.2 PerformanceMode.FULL_FEATURED

/-- C5 scenario: the full bus after the consumer drains exactly one slot
(`ProcessOne`), leaving depth `CAP - 1 = 127`. -/
def c5Drained : AsyncBus Nat := (ProcessOne Nat (fun _ => 0) 128 c5Full).2.1

/-- C6 scenario: a fresh `CAP = 1024` bus switched to `BARE_METAL`. -/
def c6Start : AsyncBus Nat :=
  SetPerformanceMode Nat (initialBus Nat 0) PerformanceMode.BARE_METAL

/-- C6 scenario: 1000 sequential LOW publishes on the empty bare-metal bus
(`CAP = 2 ^ 10 = 1024`). -/
def c6Fill : Bool × AsyncBus Nat :=
  iterPublish Nat (2 ^ 10) MessagePriority.LOW 0 0 (fun _ => 0) 1000 1000 c6Start

/-- A bus whose 32-bit queue depth is exactly `d` (producer ahead of the
consumer by `d` positions). -/
def busAtDepth (d : Nat) : AsyncBus Nat := { initialBus Nat 0 with producer_pos := d }

/-- The state a successful `Unsubscribe` leaves behind: slot `ti` gets the
rewritten entry array and a decremented live-count; nothing else changes. -/
def unsubscribedBus (π : Type) (bus : AsyncBus π) (ti : Nat)
    (entries' : List CallbackEntry) : AsyncBus π :=
  let slot' : CallbackSlot :=
    { entries := entries', count := sub32 (bus.callback_table ti).count 1 }
  { bus with callback_table := updateTable bus.callback_table ti slot' }

/-- The state `PublishInternal` carries into the admission re-check outcome:
`cached_consumer_pos` refreshed from `consumer_pos`, and (statistics on) the
recheck counted together with any stale-cache depth delta. -/
def recheckBus (π : Type) (s : AsyncBus π) : AsyncBus π :=
  let bus₁ := { s with cached_consumer_pos := s.consumer_pos }
  { bus₁ with stats :=
      { bus₁.stats with
          admission_recheck_count := add64 bus₁.stats.admission_recheck_count 1
          stale_cache_depth_delta :=
            if sub32 s.producer_pos s.cached_consumer_pos >
                sub32 s.producer_pos s.consumer_pos then
              add64 bus₁.stats.stale_cache_depth_delta
                (sub32 s.producer_pos s.cached_consumer_pos -
                  sub32 s.producer_pos s.consumer_pos)
            else bus₁.stats.stale_cache_depth_delta } }

/-- The state `ProcessOneInBatch` leaves after consuming the message at
`cons_pos`: only the slot's sequence advances to the next producer round. -/
def releasedBus (π : Type) (CAP : Nat) (s : AsyncBus π) (cons_pos : Nat) : AsyncBus π :=
  let idx := bufferIndex CAP cons_pos
  let node := s.ring_buffer idx
  let node' : RingBufferNode π := { node with sequence := add32 cons_pos CAP }
  { s with ring_buffer := updateRing s.ring_buffer idx node' }

/-- The dispatch invocations `ProcessOneInBatch` performs at `cons_pos`. -/
def dispatchedEvents (π : Type) (pidx : π → Nat) (CAP : Nat) (s : AsyncBus π)
    (cons_pos : Nat) (bare_metal : Bool) : List (Nat × MessageEnvelope π) :=
  let node := s.ring_buffer (bufferIndex CAP cons_pos)
  if bare_metal then DispatchMessageBareMetal π pidx s node.envelope
  else DispatchMessage π pidx s node.envelope

/-- The state `ProcessOneAtPos` leaves after consuming the message at
`cons_pos`: slot released, `consumer_pos` advanced, `messages_processed`
incremented (this private helper is not mode-aware). -/
def consumedOneBus (π : Type) (CAP : Nat) (s : AsyncBus π) (cons_pos : Nat) : AsyncBus π :=
  let idx := bufferIndex CAP cons_pos
  let node := s.ring_buffer idx
  let node' : RingBufferNode π := { node with sequence := add32 cons_pos CAP }
  { s with
      ring_buffer := updateRing s.ring_buffer idx node'
      consumer_pos := add32 cons_pos 1
      stats :=
        { s.stats with messages_processed := add64 s.stats.messages_processed 1 } }

/-- C10 scenario: a `CAP = 8` bus holding one published message (MEDIUM,
payload 5, sender 7) and no subscribers. -/
def c10Bus : AsyncBus Nat := (Publish Nat (2 ^ 3) (initialBus Nat 0) 5 7 0).bus

/- ======================================================================
   Theorems.
   ====================================================================== -/

theorem U32_pos : 0 < U32 := by decide

theorem sub32_lt (a b : Nat) : sub32 a b < U32 :=
  Nat.mod_lt _ U32_pos

/-- 32-bit subtraction of reduced representatives recovers the unwrapped
difference. -/
theorem sub32_eq (P C : Nat) (hCP : C ≤ P) (h : P - C < U32) :
    sub32 (P % U32) (C % U32) = P - C := by
  unfold sub32 U32 at *
  omega

theorem add32_mod_left (a x : Nat) : add32 (a % U32) x = (a + x) % U32 := by
  unfold add32
  exact Nat.mod_add_mod a U32 x

/-- Two positions strictly less than a window of width `CAP` apart have
distinct slot indices. -/
theorem mod_ne_of_window (CAP p q : Nat) (h1 : p < q) (h2 : q - p < CAP) :
    p % CAP ≠ q % CAP := by
  intro h
  have hdvd : CAP ∣ q - p := (Nat.modEq_iff_dvd' (Nat.le_of_lt h1)).1 h
  have := Nat.le_of_dvd (by omega) hdvd
  omega

theorem bufferIndex_eq_mod (k pos : Nat) : bufferIndex (2 ^ k) pos = pos % 2 ^ k := by
  unfold bufferIndex
  exact Nat.and_pow_two_sub_one_eq_mod pos k

theorem mod_U32_mod_pow (k P : Nat) (h32 : k ≤ 32) : P % U32 % 2 ^ k = P % 2 ^ k := by
  have : (2 : Nat) ^ k ∣ U32 := by
    have : U32 = 2 ^ 32 := by decide
    rw [this]
    exact pow_dvd_pow 2 h32
  exact Nat.mod_mod_of_dvd P this

/-- A power-of-two capacity in `[2, 2^32]` is never congruent to 1 mod `2^32`. -/
theorem pow_mod_U32_ne_one (k : Nat) (h1 : 1 ≤ k) (h32 : k ≤ 32) : 2 ^ k % U32 ≠ 1 := by
  have hU : U32 = 2 ^ 32 := by decide
  rcases Nat.lt_or_ge k 32 with h | h
  · have hlt : 2 ^ k < U32 := by
      rw [hU]
      exact Nat.pow_lt_pow_right (by omega) h
    rw [Nat.mod_eq_of_lt hlt]
    have : 2 ≤ 2 ^ k := by
      calc 2 = 2 ^ 1 := by norm_num
      _ ≤ 2 ^ k := Nat.pow_le_pow_right (by omega) h1
    omega
  · have : k = 32 := le_antisymm h32 h
    subst this
    decide

/-- Successive wrapped positions are distinct (`x ≢ x+1` mod `2^32`). -/
theorem mod_succ_ne (C : Nat) : C % U32 ≠ (C + 1) % U32 := by
  intro h
  have hdvd : U32 ∣ (C + 1) - C := (Nat.modEq_iff_dvd' (Nat.le_succ C)).1 h
  have h1 : (C + 1) - C = 1 := by omega
  rw [h1] at hdvd
  have h2 := Nat.le_of_dvd (by omega) hdvd
  have : ¬ U32 ≤ 1 := by decide
  exact this h2

/-- `x+1 ≢ x+CAP` mod `2^32` for a power-of-two `CAP ∈ [2, 2^32]`. -/
theorem succ_mod_ne_add_cap (C k : Nat) (h1 : 1 ≤ k) (h32 : k ≤ 32) :
    (C + 1) % U32 ≠ (C + 2 ^ k) % U32 := by
  intro h
  have hle : C + 1 ≤ C + 2 ^ k := by
    have : 2 ≤ 2 ^ k := by
      calc 2 = 2 ^ 1 := by norm_num
      _ ≤ 2 ^ k := Nat.pow_le_pow_right (by omega) h1
    omega
  have hdvd : U32 ∣ (C + 2 ^ k) - (C + 1) := (Nat.modEq_iff_dvd' hle).1 h
  have heq : (C + 2 ^ k) - (C + 1) = 2 ^ k - 1 := by omega
  rw [heq] at hdvd
  have h2 : 2 ^ k ≤ U32 := by
    have hU : U32 = 2 ^ 32 := by decide
    rw [hU]
    exact Nat.pow_le_pow_right (by omega) h32
  have h2' : 2 ≤ 2 ^ k := by
    calc 2 = 2 ^ 1 := by norm_num
    _ ≤ 2 ^ k := Nat.pow_le_pow_right (by omega) h1
  have := Nat.le_of_dvd (by omega) hdvd
  omega

/-- The slot-claim phase never reports an admission rejection. -/
theorem publishSlotPhase_outcome_ne (π : Type) (CAP : Nat) (bus : AsyncBus π) (payload : π)
    (sender_id timestamp_us : Nat) (prio : MessagePriority) (ns : Bool) :
    (publishSlotPhase π CAP bus payload sender_id timestamp_us prio ns).outcome ≠
      PublishOutcome.admissionRejected := by
  unfold publishSlotPhase
  dsimp only
  split_ifs <;> simp

theorem UpdatePriorityDroppedStats_messages_dropped (st : BusStatistics)
    (p : MessagePriority) :
    (UpdatePriorityDroppedStats st p).messages_dropped = st.messages_dropped := by
  cases p <;> rfl

theorem priorityDroppedCounter_update (st : BusStatistics) (p : MessagePriority) :
    priorityDroppedCounter (UpdatePriorityDroppedStats st p) p =
      add64 (priorityDroppedCounter st p) 1 := by
  cases p <;> rfl

/-- Admission behaviour of `PublishInternal` in the two admission-checking
modes: with the message-id guard passed and the cached depth estimate at
least the real depth (the cache is only ever assigned past consumer
positions, so it is biased high), the admission phase rejects exactly when
the authoritative depth reaches the priority threshold; a rejection returns
`false`, refreshes the cache, and (with statistics on) counts the drop and
reports `QUEUE_FULL`. -/
theorem admission_iff (π : Type) (CAP : Nat) (bus : AsyncBus π) (payload : π)
    (sender_id timestamp_us : Nat) (prio : MessagePriority)
    (hmode : bus.performance_mode = PerformanceMode.FULL_FEATURED ∨
             bus.performance_mode = PerformanceMode.NO_STATS)
    (hid : bus.next_msg_id < MSG_ID_WRAP_THRESHOLD)
    (hcache : QueueDepth π bus ≤ sub32 bus.producer_pos bus.cached_consumer_pos) :
    ((publishInternal π CAP bus payload sender_id timestamp_us prio).outcome =
        PublishOutcome.admissionRejected ↔
      GetThresholdForPriority CAP prio ≤ QueueDepth π bus) ∧
    (GetThresholdForPriority CAP prio ≤ QueueDepth π bus →
       (publishInternal π CAP bus payload sender_id timestamp_us prio).ok = false ∧
       (publishInternal π CAP bus payload sender_id timestamp_us
           prio).bus.cached_consumer_pos = bus.consumer_pos ∧
       (bus.performance_mode = PerformanceMode.FULL_FEATURED →
          (publishInternal π CAP bus payload sender_id timestamp_us
              prio).bus.stats.messages_dropped = add64 bus.stats.messages_dropped 1 ∧
          priorityDroppedCounter
              (publishInternal π CAP bus payload sender_id timestamp_us prio).bus.stats
              prio = add64 (priorityDroppedCounter bus.stats prio) 1 ∧
          (publishInternal π CAP bus payload sender_id timestamp_us prio).reported =
            [(BusError.QUEUE_FULL, bus.next_msg_id)])) := by
  have hnotover : ¬ bus.next_msg_id ≥ MSG_ID_WRAP_THRESHOLD := Nat.not_le.2 hid
  have hcache' : sub32 bus.producer_pos bus.consumer_pos ≤
      sub32 bus.producer_pos bus.cached_consumer_pos := hcache
  rcases hmode with hf | hf
  · -- FULL_FEATURED
    unfold publishInternal
    dsimp only
    rw [hf, if_neg hnotover]
    simp only [isBareMetal, isNoStats, Bool.false_eq_true, if_false, ge_iff_le]
    by_cases hrd : GetThresholdForPriority CAP prio ≤ sub32 bus.producer_pos bus.consumer_pos
    · have hes : GetThresholdForPriority CAP prio ≤
          sub32 bus.producer_pos bus.cached_consumer_pos := le_trans hrd hcache'
      simp only [if_pos hes, if_pos hrd]
      refine ⟨⟨fun _ => hrd, fun _ => trivial⟩,
        fun _ => ⟨rfl, trivial, fun _ => ⟨?_, ?_, trivial⟩⟩⟩
      · simp [UpdatePriorityDroppedStats_messages_dropped]
      · cases prio <;>
          simp [priorityDroppedCounter, UpdatePriorityDroppedStats]
    · by_cases hes : GetThresholdForPriority CAP prio ≤
          sub32 bus.producer_pos bus.cached_consumer_pos
      · simp only [if_pos hes, if_neg hrd]
        exact ⟨⟨fun hout => absurd hout (publishSlotPhase_outcome_ne π CAP _ payload
            sender_id timestamp_us prio _), fun h => absurd h hrd⟩,
          fun h => absurd h hrd⟩
      · simp only [if_neg hes]
        exact ⟨⟨fun hout => absurd hout (publishSlotPhase_outcome_ne π CAP _ payload
            sender_id timestamp_us prio _), fun h => absurd h hrd⟩,
          fun h => absurd h hrd⟩
  · -- NO_STATS
    unfold publishInternal
    dsimp only
    rw [hf, if_neg hnotover]
    simp only [isBareMetal, isNoStats, Bool.false_eq_true, if_false, if_true, ge_iff_le]
    by_cases hrd : GetThresholdForPriority CAP prio ≤ sub32 bus.producer_pos bus.consumer_pos
    · have hes : GetThresholdForPriority CAP prio ≤
          sub32 bus.producer_pos bus.cached_consumer_pos := le_trans hrd hcache'
      simp only [if_pos hes, if_pos hrd]
      refine ⟨⟨fun _ => hrd, fun _ => trivial⟩,
        fun _ => ⟨rfl, trivial, fun hf2 => ?_⟩⟩
      exact absurd hf2 (by decide)
    · by_cases hes : GetThresholdForPriority CAP prio ≤
          sub32 bus.producer_pos bus.cached_consumer_pos
      · simp only [if_pos hes, if_neg hrd]
        exact ⟨⟨fun hout => absurd hout (publishSlotPhase_outcome_ne π CAP _ payload
            sender_id timestamp_us prio _), fun h => absurd h hrd⟩,
          fun h => absurd h hrd⟩
      · simp only [if_neg hes]
        exact ⟨⟨fun hout => absurd hout (publishSlotPhase_outcome_ne π CAP _ payload
            sender_id timestamp_us prio _), fun h => absurd h hrd⟩,
          fun h => absurd h hrd⟩

/-- **C1.** In `FULL_FEATURED` / `NO_STATS` mode (message-id guard passed,
depth cache biased high as the protocol maintains), the admission phase of
`PublishWithPriority` rejects exactly when the authoritative depth
`producer_pos - consumer_pos` reaches `threshold(P)`, where
`threshold(LOW) = ⌊CAP*60/100⌋`, `threshold(MEDIUM) = ⌊CAP*80/100⌋`,
`threshold(HIGH) = ⌊CAP*99/100⌋`; a rejection returns `false` and, with
statistics on, counts the drop (global and per-priority) and reports
`QUEUE_FULL`.  With `CAP = 128` the thresholds are 76, 102 and 126. -/
theorem c1_admission_thresholds (π : Type) (CAP : Nat) (bus : AsyncBus π) (payload : π)
    (sender_id timestamp_us : Nat) (prio : MessagePriority)
    (hmode : bus.performance_mode = PerformanceMode.FULL_FEATURED ∨
             bus.performance_mode = PerformanceMode.NO_STATS)
    (hid : bus.next_msg_id < MSG_ID_WRAP_THRESHOLD)
    (hcache : QueueDepth π bus ≤ sub32 bus.producer_pos bus.cached_consumer_pos) :
    ((PublishWithPriority π CAP bus payload sender_id timestamp_us prio).outcome =
        PublishOutcome.admissionRejected ↔
      GetThresholdForPriority CAP prio ≤ QueueDepth π bus) ∧
    (GetThresholdForPriority CAP prio ≤ QueueDepth π bus →
       (PublishWithPriority π CAP bus payload sender_id timestamp_us prio).ok = false ∧
       (bus.performance_mode = PerformanceMode.FULL_FEATURED →
          (PublishWithPriority π CAP bus payload sender_id timestamp_us
              prio).bus.stats.messages_dropped = add64 bus.stats.messages_dropped 1 ∧
          priorityDroppedCounter
              (PublishWithPriority π CAP bus payload sender_id timestamp_us prio).bus.stats
              prio = add64 (priorityDroppedCounter bus.stats prio) 1 ∧
          (PublishWithPriority π CAP bus payload sender_id timestamp_us prio).reported =
            [(BusError.QUEUE_FULL, bus.next_msg_id)])) ∧
    GetThresholdForPriority CAP MessagePriority.LOW = CAP * 60 / 100 ∧
    GetThresholdForPriority CAP MessagePriority.MEDIUM = CAP * 80 / 100 ∧
    GetThresholdForPriority CAP MessagePriority.HIGH = CAP * 99 / 100 ∧
    GetThresholdForPriority 128 MessagePriority.LOW = 76 ∧
    GetThresholdForPriority 128 MessagePriority.MEDIUM = 102 ∧
    GetThresholdForPriority 128 MessagePriority.HIGH = 126 := by
  have h := admission_iff π CAP bus payload sender_id timestamp_us prio hmode hid hcache
  exact ⟨h.1, fun hth => ⟨(h.2 hth).1, (h.2 hth).2.2⟩, rfl, rfl, rfl,
    by decide, by decide, by decide⟩

theorem c1_admission_thresholds_witness :
    (PublishWithPriority Nat 128 (busAtDepth 127) 0 0 0 MessagePriority.LOW).outcome =
      PublishOutcome.admissionRejected :=
  ((c1_admission_thresholds Nat 128 (busAtDepth 127) 0 0 0 MessagePriority.LOW
      (Or.inl rfl) (by decide) (by decide)).1).2 (by decide)

/-- **C5 (amended).** With admission checking on: at `depth = CAP` every
priority is rejected; admission at a priority reopens exactly when the
depth drops below that priority's threshold.  Since
`HIGH_PRIORITY_THRESHOLD = ⌊CAP*99/100⌋ ≤ CAP - 1`, draining a single slot
(depth `CAP - 1`) does **not** readmit HIGH publishes; with `CAP = 128`,
HIGH is readmitted only once depth ≤ 125 (three slots drained). -/
theorem c5_full_ring_readmission (π : Type) (CAP : Nat) (bus : AsyncBus π) (payload : π)
    (sender_id timestamp_us : Nat)
    (hmode : bus.performance_mode = PerformanceMode.FULL_FEATURED ∨
             bus.performance_mode = PerformanceMode.NO_STATS)
    (hid : bus.next_msg_id < MSG_ID_WRAP_THRESHOLD)
    (hcache : QueueDepth π bus ≤ sub32 bus.producer_pos bus.cached_consumer_pos)
    (h0 : 0 < CAP) :
    (QueueDepth π bus = CAP → ∀ prio,
       (PublishWithPriority π CAP bus payload sender_id timestamp_us prio).ok = false) ∧
    (∀ prio,
       (PublishWithPriority π CAP bus payload sender_id timestamp_us prio).outcome =
           PublishOutcome.admissionRejected ↔
         GetThresholdForPriority CAP prio ≤ QueueDepth π bus) ∧
    HIGH_PRIORITY_THRESHOLD CAP ≤ CAP - 1 ∧
    HIGH_PRIORITY_THRESHOLD 128 = 126 := by
  have hthr : ∀ prio, GetThresholdForPriority CAP prio ≤ CAP - 1 := by
    intro prio
    cases prio <;>
      simp only [GetThresholdForPriority, LOW_PRIORITY_THRESHOLD,
        MEDIUM_PRIORITY_THRESHOLD, HIGH_PRIORITY_THRESHOLD] <;>
      omega
  refine ⟨?_, ?_, ?_, by decide⟩
  · intro hdep prio
    have h := admission_iff π CAP bus payload sender_id timestamp_us prio hmode hid hcache
    exact (h.2 (by rw [hdep]; exact le_trans (hthr prio) (Nat.sub_le CAP 1))).1
  · intro prio
    exact (admission_iff π CAP bus payload sender_id timestamp_us prio hmode hid hcache).1
  · exact hthr MessagePriority.HIGH

set_option maxRecDepth 8000 in
theorem c5_full_ring_readmission_witness :
    (PublishWithPriority Nat 128 (busAtDepth 128) 0 0 0 MessagePriority.HIGH).ok = false :=
  (c5_full_ring_readmission Nat 128 (busAtDepth 128) 0 0 0 (Or.inl rfl) (by decide)
      (by decide) (by decide)).1 (by decide) MessagePriority.HIGH

set_option maxRecDepth 8000 in
/-- **C5 (counterexample to the original claim).** Fill a `CAP = 128` ring
to depth 128, drain exactly one slot (`ProcessOne`): depth is `CAP - 1 =
127`, yet a HIGH-priority publish is still rejected by admission
(`127 ≥ ⌊128*99/100⌋ = 126`), contradicting "drain of one slot reopens
HIGH admission". -/
theorem c5_counterexample_one_drain :
    QueueDepth Nat c5Full = 128 ∧
    QueueDepth Nat c5Drained = 127 ∧
    (PublishWithPriority Nat 128 c5Drained 0 0 0 MessagePriority.HIGH).ok = false ∧
    (PublishWithPriority Nat 128 c5Drained 0 0 0 MessagePriority.HIGH).outcome =
      PublishOutcome.admissionRejected :=
  ⟨by decide, by decide, by decide, by decide⟩

/-- Case shape of `PublishInternal`: either the call reaches the slot-claim
phase on a state differing from the input only in cache/statistics fields,
or it refuses up front (overflow or admission) leaving the ring, the
positions and the message-id counter untouched. -/
theorem publishInternal_shape (π : Type) (CAP : Nat) (s : AsyncBus π) (pl : π)
    (sid ts : Nat) (pr : MessagePriority) :
    (∃ s' : AsyncBus π,
        s'.ring_buffer = s.ring_buffer ∧ s'.producer_pos = s.producer_pos ∧
        s'.consumer_pos = s.consumer_pos ∧ s'.next_msg_id = s.next_msg_id ∧
        s'.performance_mode = s.performance_mode ∧
        publishInternal π CAP s pl sid ts pr =
          publishSlotPhase π CAP s' pl sid ts pr (isNoStats s.performance_mode)) ∨
    ((publishInternal π CAP s pl sid ts pr).outcome ≠ PublishOutcome.published ∧
     (publishInternal π CAP s pl sid ts pr).bus.ring_buffer = s.ring_buffer ∧
     (publishInternal π CAP s pl sid ts pr).bus.producer_pos = s.producer_pos ∧
     (publishInternal π CAP s pl sid ts pr).bus.consumer_pos = s.consumer_pos ∧
     (publishInternal π CAP s pl sid ts pr).bus.next_msg_id = s.next_msg_id ∧
     (publishInternal π CAP s pl sid ts pr).bus.performance_mode = s.performance_mode) := by
  by_cases hov : s.next_msg_id ≥ MSG_ID_WRAP_THRESHOLD
  · right
    refine ⟨?_, ?_, ?_, ?_, ?_, ?_⟩
    all_goals unfold publishInternal
    all_goals dsimp only
    all_goals rw [if_pos hov]
    all_goals simp
  · by_cases hbm : isBareMetal s.performance_mode = true
    · left
      refine ⟨s, rfl, rfl, rfl, rfl, rfl, ?_⟩
      unfold publishInternal
      dsimp only
      rw [if_neg hov, if_pos hbm]
    · by_cases hest : sub32 s.producer_pos s.cached_consumer_pos ≥
          GetThresholdForPriority CAP pr
      · by_cases hrd : sub32 s.producer_pos s.consumer_pos ≥
            GetThresholdForPriority CAP pr
        · right
          refine ⟨?_, ?_, ?_, ?_, ?_, ?_⟩
          all_goals unfold publishInternal
          all_goals dsimp only
          all_goals rw [if_neg hov, if_neg hbm, if_pos hest, if_pos hrd]
          all_goals cases hns : isNoStats s.performance_mode <;> simp [hns]
        · left
          refine ⟨(if isNoStats s.performance_mode then
              ({ s with cached_consumer_pos := s.consumer_pos } : AsyncBus π)
            else recheckBus π s), ?_, ?_, ?_, ?_, ?_, ?_⟩
          · cases hns : isNoStats s.performance_mode <;> simp [hns, recheckBus]
          · cases hns : isNoStats s.performance_mode <;> simp [hns, recheckBus]
          · cases hns : isNoStats s.performance_mode <;> simp [hns, recheckBus]
          · cases hns : isNoStats s.performance_mode <;> simp [hns, recheckBus]
          · cases hns : isNoStats s.performance_mode <;> simp [hns, recheckBus]
          · unfold publishInternal
            dsimp only
            rw [if_neg hov, if_neg hbm, if_pos hest, if_neg hrd]
            cases hns : isNoStats s.performance_mode <;> simp [hns, recheckBus]
      · left
        refine ⟨s, rfl, rfl, rfl, rfl, rfl, ?_⟩
        unfold publishInternal
        dsimp only
        rw [if_neg hov, if_neg hbm, if_neg hest]

/-- A successful slot-claim phase allocated exactly the pending message id:
the written envelope carries `next_msg_id`, which is then incremented. -/
theorem publishSlotPhase_published_id (π : Type) (CAP : Nat) (s : AsyncBus π) (pl : π)
    (sid ts : Nat) (pr : MessagePriority) (ns : Bool)
    (h : (publishSlotPhase π CAP s pl sid ts pr ns).outcome = PublishOutcome.published) :
    (publishSlotPhase π CAP s pl sid ts pr ns).bus.next_msg_id = add64 s.next_msg_id 1 ∧
    ((publishSlotPhase π CAP s pl sid ts pr ns).bus.ring_buffer
        (bufferIndex CAP s.producer_pos)).envelope.header.msg_id = s.next_msg_id := by
  unfold publishSlotPhase at h ⊢
  dsimp only at h ⊢
  split_ifs at h ⊢ with hseq hns
  all_goals refine ⟨rfl, ?_⟩
  all_goals simp [updateRing]

/-- A failed slot-claim phase does not consume a message id. -/
theorem publishSlotPhase_failed_id (π : Type) (CAP : Nat) (s : AsyncBus π) (pl : π)
    (sid ts : Nat) (pr : MessagePriority) (ns : Bool)
    (h : (publishSlotPhase π CAP s pl sid ts pr ns).outcome ≠ PublishOutcome.published) :
    (publishSlotPhase π CAP s pl sid ts pr ns).bus.next_msg_id = s.next_msg_id := by
  unfold publishSlotPhase at h ⊢
  dsimp only at h ⊢
  split_ifs at h ⊢ with hseq hns <;>
    first
      | rfl
      | exact absurd rfl h

/-- **C4 (amended).** Once `next_msg_id ≥ MSG_ID_WRAP_THRESHOLD =
2^64 - 1 - 10000`, every publish call refuses: it returns `false`, leaves
the entire state (in particular every statistics counter) untouched, and
reports `OVERFLOW_DETECTED` exactly once — but only in `FULL_FEATURED`
mode; in `NO_STATS` / `BARE_METAL` mode the error report is suppressed.
Below the threshold, each successful publish stamps its envelope with the
current `next_msg_id` and increments it by one, while failed publishes
leave it unchanged — so successive successful publishes carry strictly
increasing, never-duplicated ids. -/
theorem c4_overflow_guard (π : Type) (CAP : Nat) (bus : AsyncBus π) (payload : π)
    (sender_id timestamp_us : Nat) (prio : MessagePriority)
    (hover : MSG_ID_WRAP_THRESHOLD ≤ bus.next_msg_id) :
    (publishInternal π CAP bus payload sender_id timestamp_us prio).outcome =
      PublishOutcome.overflowRefused ∧
    (publishInternal π CAP bus payload sender_id timestamp_us prio).ok = false ∧
    (publishInternal π CAP bus payload sender_id timestamp_us prio).bus = bus ∧
    (isNoStats bus.performance_mode = false →
       (publishInternal π CAP bus payload sender_id timestamp_us prio).reported =
         [(BusError.OVERFLOW_DETECTED, bus.next_msg_id)]) ∧
    (isNoStats bus.performance_mode = true →
       (publishInternal π CAP bus payload sender_id timestamp_us prio).reported = []) ∧
    (∀ (s : AsyncBus π) (pl : π) (sid ts2 : Nat) (pr2 : MessagePriority),
       (publishInternal π CAP s pl sid ts2 pr2).outcome = PublishOutcome.published →
       s.next_msg_id < MSG_ID_WRAP_THRESHOLD ∧
       (publishInternal π CAP s pl sid ts2 pr2).bus.next_msg_id = s.next_msg_id + 1 ∧
       ((publishInternal π CAP s pl sid ts2 pr2).bus.ring_buffer
           (bufferIndex CAP s.producer_pos)).envelope.header.msg_id = s.next_msg_id) ∧
    (∀ (s : AsyncBus π) (pl : π) (sid ts2 : Nat) (pr2 : MessagePriority),
       (publishInternal π CAP s pl sid ts2 pr2).outcome ≠ PublishOutcome.published →
       (publishInternal π CAP s pl sid ts2 pr2).bus.next_msg_id = s.next_msg_id) := by
  have hrefuse :
      ∀ h : bus.next_msg_id ≥ MSG_ID_WRAP_THRESHOLD,
        publishInternal π CAP bus payload sender_id timestamp_us prio =
          { outcome := PublishOutcome.overflowRefused, bus := bus
            reported :=
              if isNoStats bus.performance_mode then []
              else [(BusError.OVERFLOW_DETECTED, bus.next_msg_id)] } := by
    intro h
    unfold publishInternal
    dsimp only
    rw [if_pos h]
  rw [hrefuse hover]
  refine ⟨rfl, rfl, rfl, ?_, ?_, ?_, ?_⟩
  · intro h
    simp [h]
  · intro h
    simp [h]
  · -- a successful publish consumes exactly the pending id
    intro s pl sid ts2 pr2 hpub
    rcases publishInternal_shape π CAP s pl sid ts2 pr2 with
      ⟨s', hring, hprod, hcons, hid', hmode', heq⟩ | ⟨hne, -⟩
    · rw [heq] at hpub ⊢
      have hov : s'.next_msg_id < MSG_ID_WRAP_THRESHOLD := by
        by_contra hge
        have : (publishSlotPhase π CAP s' pl sid ts2 pr2
            (isNoStats s.performance_mode)).outcome = PublishOutcome.published := hpub
        rw [← heq] at this
        have h2 : (publishInternal π CAP s pl sid ts2 pr2).outcome =
            PublishOutcome.overflowRefused := by
          unfold publishInternal
          dsimp only
          rw [if_pos (hid' ▸ Nat.le_of_not_lt hge)]
        rw [h2] at this
        exact absurd this (by simp)
      have hlt : s.next_msg_id < MSG_ID_WRAP_THRESHOLD := hid' ▸ hov
      have hadd : add64 s'.next_msg_id 1 = s.next_msg_id + 1 := by
        rw [hid']
        unfold add64 U64
        unfold MSG_ID_WRAP_THRESHOLD U64 at hlt
        omega
      have h2 := publishSlotPhase_published_id π CAP s' pl sid ts2 pr2 _ hpub
      rw [hadd, hprod, hid'] at h2
      exact ⟨hlt, h2⟩
    · exact absurd hpub hne
  · -- a failed publish does not consume an id
    intro s pl sid ts2 pr2 hfail
    rcases publishInternal_shape π CAP s pl sid ts2 pr2 with
      ⟨s', hring, hprod, hcons, hid', hmode', heq⟩ | ⟨-, -, -, -, hid', -⟩
    · rw [heq] at hfail ⊢
      rw [publishSlotPhase_failed_id π CAP s' pl sid ts2 pr2 _ hfail]
      exact hid'
    · exact hid'

theorem c4_overflow_guard_witness :
    (publishInternal Nat 8 c4cexBus 0 0 0 MessagePriority.MEDIUM).ok = false :=
  (c4_overflow_guard Nat 8 c4cexBus 0 0 0 MessagePriority.MEDIUM (by decide)).2.1

/-- **C4 (counterexample to the original claim).** In `NO_STATS` mode with
`next_msg_id` at the wrap threshold, `Publish` returns `false` but invokes
**no** error callback (`ReportError` is skipped when `no_stats`), refuting
"invokes the error callback exactly once" for every mode. -/
theorem c4_counterexample_no_stats :
    MSG_ID_WRAP_THRESHOLD ≤ c4cexBus.next_msg_id ∧
    (Publish Nat 8 c4cexBus 0 0 0).ok = false ∧
    (Publish Nat 8 c4cexBus 0 0 0).reported = [] :=
  ⟨by decide, by decide, by decide⟩

set_option maxRecDepth 8000 in
/-- **C3.** On an empty `CAP = 128` bus with one subscriber, ten sequential
MEDIUM publishes of payloads `0..9` all succeed, and `ProcessBatch` then
returns 10, dispatching exactly ten envelopes carrying `0..9` in publish
order with strictly increasing `msg_id` (1..10), leaving
`messages_processed = 10` and `messages_dropped = 0`; and draining a single
published envelope with an arbitrary payload `q` hands exactly that payload
back to the subscriber. -/
theorem c3_fifo_roundtrip (q : Nat) :
    (c3Published (fun i => i)).1 = true ∧
    (c3Result (fun i => i)).1 = 10 ∧
    (c3Result (fun i => i)).2.2 =
      [(1, ⟨⟨1, 0, 7, MessagePriority.MEDIUM⟩, 0⟩),
       (1, ⟨⟨2, 0, 7, MessagePriority.MEDIUM⟩, 1⟩),
       (1, ⟨⟨3, 0, 7, MessagePriority.MEDIUM⟩, 2⟩),
       (1, ⟨⟨4, 0, 7, MessagePriority.MEDIUM⟩, 3⟩),
       (1, ⟨⟨5, 0, 7, MessagePriority.MEDIUM⟩, 4⟩),
       (1, ⟨⟨6, 0, 7, MessagePriority.MEDIUM⟩, 5⟩),
       (1, ⟨⟨7, 0, 7, MessagePriority.MEDIUM⟩, 6⟩),
       (1, ⟨⟨8, 0, 7, MessagePriority.MEDIUM⟩, 7⟩),
       (1, ⟨⟨9, 0, 7, MessagePriority.MEDIUM⟩, 8⟩),
       (1, ⟨⟨10, 0, 7, MessagePriority.MEDIUM⟩, 9⟩)] ∧
    List.Chain' (· < ·)
      ((c3Result (fun i => i)).2.2.map (fun e => e.2.header.msg_id)) ∧
    (c3Result (fun i => i)).2.1.stats.messages_processed = 10 ∧
    (c3Result (fun i => i)).2.1.stats.messages_dropped = 0 ∧
    (ProcessBatch Nat (fun _ => 0) 128 (Publish Nat 128 c3Subscribed q 7 0).bus).2.2 =
      [(1, ⟨⟨1, 0, 7, MessagePriority.MEDIUM⟩, q⟩)] := by
  refine ⟨by decide, by decide, by decide, ?_, by decide, by decide, ?_⟩
  · have hm : (c3Result (fun i => i)).2.2.map (fun e => e.2.header.msg_id) =
        [1, 2, 3, 4, 5, 6, 7, 8, 9, 10] := by decide
    rw [hm]
    norm_num [List.chain'_cons]
  have hc : (Publish Nat 128 c3Subscribed q 7 0).bus.consumer_pos = 0 := rfl
  have hb : isBareMetal (Publish Nat 128 c3Subscribed q 7 0).bus.performance_mode =
      false := rfl
  have hn : isNoStats (Publish Nat 128 c3Subscribed q 7 0).bus.performance_mode =
      false := rfl
  unfold ProcessBatch
  simp only [hc, hb, hn]
  rfl

theorem midWF_of_coreEq (π : Type) (CAP : Nat) (s t : AsyncBus π) (P C Cc : Nat)
    (hc : coreEq π t s) (h : MidWF π CAP s P C Cc) : MidWF π CAP t P C Cc := by
  obtain ⟨hr, hp, hco⟩ := hc
  obtain ⟨h1, h2, h3, h4, h5, h6, h7⟩ := h
  exact ⟨h1, h2, h3, by rw [hp, h4], by rw [hco, h5],
    fun p hp1 hp2 => by rw [hr]; exact h6 p hp1 hp2,
    fun p hp1 hp2 => by rw [hr]; exact h7 p hp1 hp2⟩

/-- The freshly-constructed bus satisfies the ring protocol invariant. -/
theorem initialBus_midWF (π : Type) (CAP : Nat) (d : π) (hCAP : CAP ≤ U32) :
    MidWF π CAP (initialBus π d) 0 0 0 := by
  refine ⟨Nat.le_refl 0, Nat.le_refl 0, Nat.zero_le _, rfl, rfl, ?_, ?_⟩
  · intro p hp1 hp2
    omega
  · intro p hp1 hp2
    have hpc : p < CAP := by omega
    have : p % CAP = p := Nat.mod_eq_of_lt hpc
    rw [this]
    show p = p % U32
    exact (Nat.mod_eq_of_lt (by omega)).symm

/-- The slot index the producer claims is the ghost position's slot. -/
theorem bufferIndex_ghost (k P : Nat) (hk32 : k ≤ 32) :
    bufferIndex (2 ^ k) (P % U32) = P % 2 ^ k := by
  rw [bufferIndex_eq_mod, mod_U32_mod_pow k P hk32]

/-- Claiming a free slot (`P < C + CAP`): the slot phase publishes and the
invariant advances to `P + 1`.  Statistics are untouched when `ns`. -/
theorem publishSlotPhase_not_full (π : Type) (k : Nat) (h1k : 1 ≤ k) (hk32 : k ≤ 32)
    (s : AsyncBus π) (pl : π) (sid ts : Nat) (pr : MessagePriority) (ns : Bool)
    (P C : Nat) (h : MidWF π (2 ^ k) s P C C) (hlt : P < C + 2 ^ k) :
    (publishSlotPhase π (2 ^ k) s pl sid ts pr ns).outcome = PublishOutcome.published ∧
    MidWF π (2 ^ k) (publishSlotPhase π (2 ^ k) s pl sid ts pr ns).bus (P + 1) C C ∧
    (ns = true → (publishSlotPhase π (2 ^ k) s pl sid ts pr ns).bus.stats = s.stats) ∧
    (publishSlotPhase π (2 ^ k) s pl sid ts pr ns).bus.performance_mode =
      s.performance_mode ∧
    (publishSlotPhase π (2 ^ k) s pl sid ts pr ns).bus.next_msg_id =
      add64 s.next_msg_id 1 := by
  obtain ⟨hcc, hcp, hpc, hprod, hcons, hfill, hempty⟩ := h
  have hidx : bufferIndex (2 ^ k) s.producer_pos = P % 2 ^ k := by
    rw [hprod]
    exact bufferIndex_ghost k P hk32
  have hseq : (s.ring_buffer (P % 2 ^ k)).sequence = P % U32 :=
    hempty P (Nat.le_refl P) hlt
  have hcheck : ¬ ((s.ring_buffer (bufferIndex (2 ^ k) s.producer_pos)).sequence ≠
      s.producer_pos) := by
    rw [hidx, hseq, hprod]
    exact fun hne => hne rfl
  have hbase : ∀ t : AsyncBus π,
      t.ring_buffer = updateRing s.ring_buffer (bufferIndex (2 ^ k) s.producer_pos)
        { sequence := add32 s.producer_pos 1
          envelope :=
            { header := { msg_id := s.next_msg_id, timestamp_us := ts
                          sender_id := sid, priority := pr }
              payload := pl } } →
      t.producer_pos = add32 s.producer_pos 1 →
      t.consumer_pos = s.consumer_pos →
      MidWF π (2 ^ k) t (P + 1) C C := by
    intro t ht1 ht2 ht3
    refine ⟨hcc, by omega, by omega, ?_, by rw [ht3, hcons], ?_, ?_⟩
    · rw [ht2, hprod, add32_mod_left]
    · intro p hp1 hp2
      rcases Nat.lt_or_ge p P with hpP | hpP
      · have hne : p % 2 ^ k ≠ P % 2 ^ k := by
          apply mod_ne_of_window (2 ^ k) p P hpP
          omega
        rw [ht1, hidx]
        unfold updateRing
        rw [if_neg hne]
        exact hfill p hp1 hpP
      · have hpeq : p = P := by omega
        subst hpeq
        rw [ht1, hidx]
        unfold updateRing
        rw [if_pos rfl]
        show add32 s.producer_pos 1 = (p + 1) % U32
        rw [hprod, add32_mod_left]
    · intro p hp1 hp2
      have hne : P % 2 ^ k ≠ p % 2 ^ k := by
        apply mod_ne_of_window (2 ^ k) P p (by omega)
        omega
      rw [ht1, hidx]
      unfold updateRing
      rw [if_neg (Ne.symm hne)]
      exact hempty p (by omega) hp2
  unfold publishSlotPhase
  dsimp only
  rw [if_neg hcheck]
  exact ⟨rfl,
    hbase _ (by cases ns <;> rfl) (by cases ns <;> rfl) (by cases ns <;> rfl),
    fun hns => by subst hns; rfl,
    by cases ns <;> rfl,
    by cases ns <;> rfl⟩

/-- Claiming when the ring is exactly full (`P = C + CAP`): the stored
sequence belongs to the filled position `C`, the check fails, and the slot
phase rejects without touching the ring or the positions. -/
theorem publishSlotPhase_full (π : Type) (k : Nat) (h1k : 1 ≤ k) (hk32 : k ≤ 32)
    (s : AsyncBus π) (pl : π) (sid ts : Nat) (pr : MessagePriority) (ns : Bool)
    (P C : Nat) (h : MidWF π (2 ^ k) s P C C) (hfull : P = C + 2 ^ k) :
    (publishSlotPhase π (2 ^ k) s pl sid ts pr ns).outcome =
      PublishOutcome.slotRejected ∧
    coreEq π (publishSlotPhase π (2 ^ k) s pl sid ts pr ns).bus s ∧
    (publishSlotPhase π (2 ^ k) s pl sid ts pr ns).bus.next_msg_id = s.next_msg_id ∧
    (publishSlotPhase π (2 ^ k) s pl sid ts pr ns).bus.performance_mode =
      s.performance_mode := by
  obtain ⟨hcc, hcp, hpc, hprod, hcons, hfill, hempty⟩ := h
  have hCP : C < P := by
    have : 1 ≤ 2 ^ k := Nat.one_le_two_pow
    omega
  have hidx : bufferIndex (2 ^ k) s.producer_pos = C % 2 ^ k := by
    rw [hprod, bufferIndex_ghost k P hk32, hfull, Nat.add_mod_right]
  have hseq : (s.ring_buffer (C % 2 ^ k)).sequence = (C + 1) % U32 :=
    hfill C (Nat.le_refl C) hCP
  have hcheck : (s.ring_buffer (bufferIndex (2 ^ k) s.producer_pos)).sequence ≠
      s.producer_pos := by
    rw [hidx, hseq, hprod, hfull]
    exact succ_mod_ne_add_cap C k h1k hk32
  unfold publishSlotPhase
  dsimp only
  rw [if_pos hcheck]
  exact ⟨rfl,
    ⟨by cases ns <;> rfl, by cases ns <;> rfl, by cases ns <;> rfl⟩,
    by cases ns <;> rfl,
    by cases ns <;> rfl⟩

/-- A publish step preserves the ring protocol invariant, advancing the
ghost producer position by at most one. -/
theorem publishInternal_midWF (π : Type) (k : Nat) (h1k : 1 ≤ k) (hk32 : k ≤ 32)
    (s : AsyncBus π) (pl : π) (sid ts : Nat) (pr : MessagePriority) (P C : Nat)
    (h : MidWF π (2 ^ k) s P C C) :
    ∃ P', (P' = P ∨ P' = P + 1) ∧
      MidWF π (2 ^ k) (publishInternal π (2 ^ k) s pl sid ts pr).bus P' C C := by
  rcases publishInternal_shape π (2 ^ k) s pl sid ts pr with
    ⟨s', hring, hprod, hcons, hid', hmode', heq⟩ | ⟨hne, hr, hp, hc, hn, hm⟩
  · have hs' : MidWF π (2 ^ k) s' P C C :=
      midWF_of_coreEq π (2 ^ k) s s' P C C ⟨hring, hprod, hcons⟩ h
    rcases Nat.lt_or_ge P (C + 2 ^ k) with hlt | hge
    · have hstep := publishSlotPhase_not_full π k h1k hk32 s' pl sid ts pr
        (isNoStats s.performance_mode) P C hs' hlt
      exact ⟨P + 1, Or.inr rfl, by rw [heq]; exact hstep.2.1⟩
    · have hfull : P = C + 2 ^ k := le_antisymm h.2.2.1 hge
      have hstep := publishSlotPhase_full π k h1k hk32 s' pl sid ts pr
        (isNoStats s.performance_mode) P C hs' hfull
      refine ⟨P, Or.inl rfl, ?_⟩
      rw [heq]
      exact midWF_of_coreEq π (2 ^ k) s' _ P C C hstep.2.1 hs'
  · exact ⟨P, Or.inl rfl, midWF_of_coreEq π (2 ^ k) s _ P C C ⟨hr, hp, hc⟩ h⟩

/-- Consuming a pending message (`Cc < P`): the batch worker succeeds,
releases the slot for round `Cc + CAP`, and touches nothing else. -/
theorem processOneInBatch_ready (π : Type) (pidx : π → Nat) (k : Nat) (hk32 : k ≤ 32)
    (s : AsyncBus π) (bm : Bool) (P C Cc : Nat)
    (h : MidWF π (2 ^ k) s P C Cc) (hlt : Cc < P) :
    ProcessOneInBatch π pidx (2 ^ k) s (Cc % U32) bm =
      (true, releasedBus π (2 ^ k) s (Cc % U32),
        dispatchedEvents π pidx (2 ^ k) s (Cc % U32) bm) ∧
      MidWF π (2 ^ k) (releasedBus π (2 ^ k) s (Cc % U32)) P C (Cc + 1) ∧
      (releasedBus π (2 ^ k) s (Cc % U32)).stats = s.stats ∧
      (releasedBus π (2 ^ k) s (Cc % U32)).consumer_pos = s.consumer_pos ∧
      (releasedBus π (2 ^ k) s (Cc % U32)).producer_pos = s.producer_pos ∧
      (releasedBus π (2 ^ k) s (Cc % U32)).performance_mode = s.performance_mode := by
  obtain ⟨hcc, hcp, hpc, hprod, hcons, hfill, hempty⟩ := h
  have hidx : bufferIndex (2 ^ k) (Cc % U32) = Cc % 2 ^ k := bufferIndex_ghost k Cc hk32
  have hseq : (s.ring_buffer (Cc % 2 ^ k)).sequence = (Cc + 1) % U32 :=
    hfill Cc (Nat.le_refl Cc) hlt
  have hcheck : ¬ ((s.ring_buffer (bufferIndex (2 ^ k) (Cc % U32))).sequence ≠
      add32 (Cc % U32) 1) := by
    rw [hidx, hseq, add32_mod_left]
    exact fun hne => hne rfl
  have hbase : ∀ t : AsyncBus π,
      t.ring_buffer = updateRing s.ring_buffer (bufferIndex (2 ^ k) (Cc % U32))
        { sequence := add32 (Cc % U32) (2 ^ k)
          envelope := (s.ring_buffer (bufferIndex (2 ^ k) (Cc % U32))).envelope } →
      t.producer_pos = s.producer_pos →
      t.consumer_pos = s.consumer_pos →
      MidWF π (2 ^ k) t P C (Cc + 1) := by
    intro t ht1 ht2 ht3
    refine ⟨by omega, by omega, hpc, by rw [ht2, hprod], by rw [ht3, hcons], ?_, ?_⟩
    · intro p hp1 hp2
      have hne : p % 2 ^ k ≠ Cc % 2 ^ k := by
        apply Ne.symm
        apply mod_ne_of_window (2 ^ k) Cc p (by omega)
        omega
      rw [ht1, hidx]
      unfold updateRing
      rw [if_neg hne]
      exact hfill p (by omega) hp2
    · intro p hp1 hp2
      rcases Nat.lt_or_ge p (Cc + 2 ^ k) with hpl | hpl
      · have hne : p % 2 ^ k ≠ Cc % 2 ^ k := by
          apply Ne.symm
          apply mod_ne_of_window (2 ^ k) Cc p (by omega)
          omega
        rw [ht1, hidx]
        unfold updateRing
        rw [if_neg hne]
        exact hempty p hp1 hpl
      · have hpeq : p = Cc + 2 ^ k := by omega
        subst hpeq
        rw [ht1, hidx, Nat.add_mod_right]
        unfold updateRing
        rw [if_pos rfl]
        show add32 (Cc % U32) (2 ^ k) = (Cc + 2 ^ k) % U32
        rw [add32_mod_left]
  refine ⟨?heq, ?hwf, rfl, rfl, rfl, rfl⟩
  case heq =>
    unfold ProcessOneInBatch releasedBus dispatchedEvents
    dsimp only
    rw [if_neg hcheck]
  case hwf => exact hbase _ rfl rfl rfl

/-- With no pending message (`Cc = P`), the batch worker stops: the free
slot carries `sequence = P`, not the expected `P + 1`. -/
theorem processOneInBatch_empty (π : Type) (pidx : π → Nat) (k : Nat) (h1k : 1 ≤ k)
    (hk32 : k ≤ 32) (s : AsyncBus π) (bm : Bool) (P C : Nat)
    (h : MidWF π (2 ^ k) s P C P) :
    ProcessOneInBatch π pidx (2 ^ k) s (P % U32) bm = (false, s, []) := by
  obtain ⟨hcc, hcp, hpc, hprod, hcons, hfill, hempty⟩ := h
  have hidx : bufferIndex (2 ^ k) (P % U32) = P % 2 ^ k := bufferIndex_ghost k P hk32
  have hseq : (s.ring_buffer (P % 2 ^ k)).sequence = P % U32 := by
    apply hempty P (Nat.le_refl P)
    have : 1 ≤ 2 ^ k := Nat.one_le_two_pow
    omega
  have hcheck : (s.ring_buffer (bufferIndex (2 ^ k) (P % U32))).sequence ≠
      add32 (P % U32) 1 := by
    rw [hidx, hseq, add32_mod_left]
    exact mod_succ_ne P
  unfold ProcessOneInBatch
  dsimp only
  rw [if_pos hcheck]

/-- The batch loop consumes some `n ≤ P - Cc` pending messages, preserving
the invariant and every non-ring field. -/
theorem batchLoop_inv (π : Type) (pidx : π → Nat) (k : Nat) (h1k : 1 ≤ k)
    (hk32 : k ≤ 32) :
    ∀ (fuel : Nat) (s : AsyncBus π) (P C Cc : Nat) (bm : Bool),
      MidWF π (2 ^ k) s P C Cc →
      ∃ n, Cc + n ≤ P ∧
        (batchLoop π pidx (2 ^ k) fuel s (Cc % U32) bm).1 = n ∧
        (batchLoop π pidx (2 ^ k) fuel s (Cc % U32) bm).2.1 = (Cc + n) % U32 ∧
        MidWF π (2 ^ k) (batchLoop π pidx (2 ^ k) fuel s (Cc % U32) bm).2.2.1 P C
          (Cc + n) ∧
        (batchLoop π pidx (2 ^ k) fuel s (Cc % U32) bm).2.2.1.stats = s.stats ∧
        (batchLoop π pidx (2 ^ k) fuel s (Cc % U32) bm).2.2.1.consumer_pos =
          s.consumer_pos ∧
        (batchLoop π pidx (2 ^ k) fuel s (Cc % U32) bm).2.2.1.producer_pos =
          s.producer_pos ∧
        (batchLoop π pidx (2 ^ k) fuel s (Cc % U32) bm).2.2.1.performance_mode =
          s.performance_mode := by
  intro fuel
  induction fuel with
  | zero =>
    intro s P C Cc bm h
    have hcp : Cc ≤ P := h.2.1
    exact ⟨0, by omega, rfl, rfl, h, rfl, rfl, rfl, rfl⟩
  | succ fuel ih =>
    intro s P C Cc bm h
    have hcp : Cc ≤ P := h.2.1
    rcases Nat.lt_or_ge Cc P with hlt | hge
    · obtain ⟨heq, hwf, hst, hco, hpr, hpm⟩ :=
        processOneInBatch_ready π pidx k hk32 s bm P C Cc h hlt
      have hnext : add32 (Cc % U32) 1 = (Cc + 1) % U32 := add32_mod_left Cc 1
      obtain ⟨n, hn1, hn2, hn3, hn4, hn5, hn6, hn7, hn8⟩ :=
        ih (releasedBus π (2 ^ k) s (Cc % U32)) P C (Cc + 1) bm hwf
      refine ⟨n + 1, by omega, ?_, ?_, ?_, ?_, ?_, ?_, ?_⟩ <;>
        simp only [batchLoop, heq, hnext]
      · rw [hn2]
      · rw [hn3]
        congr 1
        omega
      · have harr : Cc + (n + 1) = Cc + 1 + n := by omega
        rw [harr]
        exact hn4
      · rw [hn5, hst]
      · rw [hn6, hco]
      · rw [hn7, hpr]
      · rw [hn8, hpm]
    · have hPC : Cc = P := by omega
      subst hPC
      have heq := processOneInBatch_empty π pidx k h1k hk32 s bm Cc C h
      refine ⟨0, by omega, ?_, ?_, ?_, ?_, ?_, ?_, ?_⟩ <;>
        simp only [batchLoop, heq] <;>
        first
          | rfl
          | exact h

/-- Storing the batch's final local cursor into `consumer_pos` turns a
mid-batch invariant into the quiescent one. -/
theorem consumerStore_midWF (π : Type) (CAP : Nat) (t : AsyncBus π) (P C Cc : Nat)
    (h : MidWF π CAP t P C Cc) :
    ∀ u : AsyncBus π, u.ring_buffer = t.ring_buffer →
      u.producer_pos = t.producer_pos → u.consumer_pos = Cc % U32 →
      MidWF π CAP u P Cc Cc := by
  obtain ⟨hcc, hcp, hpc, hprod, hcons, hfill, hempty⟩ := h
  intro u h1 h2 h3
  refine ⟨Nat.le_refl Cc, hcp, by omega, by rw [h2, hprod], h3, ?_, ?_⟩
  · intro p hp1 hp2
    rw [h1]
    exact hfill p hp1 hp2
  · intro p hp1 hp2
    rw [h1]
    exact hempty p hp1 hp2

/-- `ProcessBatch` drains some `n ≤ P - C` messages: the invariant advances
the consumer ghost position by `n`, and `messages_processed` counts the
batch exactly when statistics are on and something was drained. -/
theorem ProcessBatch_inv (π : Type) (pidx : π → Nat) (k : Nat) (h1k : 1 ≤ k)
    (hk32 : k ≤ 32) (s : AsyncBus π) (P C : Nat) (h : MidWF π (2 ^ k) s P C C) :
    ∃ n, C + n ≤ P ∧ (ProcessBatch π pidx (2 ^ k) s).1 = n ∧
      MidWF π (2 ^ k) (ProcessBatch π pidx (2 ^ k) s).2.1 P (C + n) (C + n) ∧
      (ProcessBatch π pidx (2 ^ k) s).2.1.stats =
        (if isNoStats s.performance_mode = true ∨ n = 0 then s.stats
         else { s.stats with
                  messages_processed := add64 s.stats.messages_processed n }) ∧
      (ProcessBatch π pidx (2 ^ k) s).2.1.producer_pos = s.producer_pos ∧
      (ProcessBatch π pidx (2 ^ k) s).2.1.performance_mode = s.performance_mode := by
  obtain ⟨n, hn1, hn2, hn3, hn4, hn5, hn6, hn7, hn8⟩ :=
    batchLoop_inv π pidx k h1k hk32 BATCH_PROCESS_SIZE s P C C
      (isBareMetal s.performance_mode) h
  have hcons : s.consumer_pos = C % U32 := h.2.2.2.2.1
  rcases Nat.eq_zero_or_pos n with hn0 | hnpos
  · subst hn0
    refine ⟨0, hn1, ?_, ?_, ?_, ?_, ?_⟩
    · unfold ProcessBatch
      dsimp only
      rw [hcons, hn2, if_neg (Nat.lt_irrefl 0)]
    · unfold ProcessBatch
      dsimp only
      rw [hcons, hn2, if_neg (Nat.lt_irrefl 0)]
      exact hn4
    · unfold ProcessBatch
      dsimp only
      rw [hcons, hn2, if_neg (Nat.lt_irrefl 0), if_pos (Or.inr rfl)]
      exact hn5
    · unfold ProcessBatch
      dsimp only
      rw [hcons, hn2, if_neg (Nat.lt_irrefl 0)]
      exact hn7
    · unfold ProcessBatch
      dsimp only
      rw [hcons, hn2, if_neg (Nat.lt_irrefl 0)]
      exact hn8
  · refine ⟨n, hn1, ?_, ?_, ?_, ?_, ?_⟩
    · unfold ProcessBatch
      dsimp only
      rw [hcons, hn2, if_pos hnpos]
    · unfold ProcessBatch
      dsimp only
      rw [hcons, hn2, if_pos hnpos]
      cases hns : isNoStats s.performance_mode
      · simp only [hns, Bool.false_eq_true, if_false]
        exact consumerStore_midWF π (2 ^ k) _ P C (C + n) hn4 _ rfl rfl hn3
      · simp only [hns, eq_self_iff_true, if_true]
        exact consumerStore_midWF π (2 ^ k) _ P C (C + n) hn4 _ rfl rfl hn3
    · unfold ProcessBatch
      dsimp only
      rw [hcons, hn2, if_pos hnpos]
      cases hns : isNoStats s.performance_mode
      · simp only [hns, Bool.false_eq_true, if_false, false_or]
        rw [hn5, if_neg (by omega : ¬ n = 0)]
      · simp only [hns, eq_self_iff_true, if_true, if_pos (Or.inl rfl)]
        exact hn5
    · unfold ProcessBatch
      dsimp only
      rw [hcons, hn2, if_pos hnpos]
      cases hns : isNoStats s.performance_mode <;>
        simp only [hns, Bool.false_eq_true, if_false, eq_self_iff_true, if_true] <;>
        exact hn7
    · unfold ProcessBatch
      dsimp only
      rw [hcons, hn2, if_pos hnpos]
      cases hns : isNoStats s.performance_mode <;>
        simp only [hns, Bool.false_eq_true, if_false, eq_self_iff_true, if_true] <;>
        exact hn8

/-- **C9.** For every `FixedVector<T, K>`: at full capacity (`size() = K`),
`push_back`/`emplace_back` return `false` and leave the vector (size and
every stored element) unchanged; below capacity they append the element,
increment the size, and return `true`. -/
theorem c9_fixedvector_push (T : Type) (K : Nat) (v : FixedVector T K) (x : T) :
    (v.size = K →
       v.emplace_back x = (false, v) ∧ v.push_back x = (false, v)) ∧
    (v.size < K →
       v.emplace_back x = (true, ⟨v.data ++ [x]⟩) ∧
       (v.emplace_back x).2.size = v.size + 1 ∧
       (v.emplace_back x).2.data = v.data ++ [x] ∧
       v.push_back x = (true, ⟨v.data ++ [x]⟩)) := by
  constructor
  · intro h
    have : v.size ≥ K := Nat.le_of_eq h.symm
    simp [FixedVector.emplace_back, FixedVector.push_back, this]
  · intro h
    have hlt : ¬ K ≤ v.data.length := by
      simpa [FixedVector.size] using Nat.not_le.2 h
    simp [FixedVector.emplace_back, FixedVector.push_back, FixedVector.size, hlt,
      List.length_append]

/-- **C7.** `GetBackpressureLevel` partitions depths `0..CAP` exactly at the
integer thresholds `⌊CAP*75/100⌋`, `⌊CAP*90/100⌋` and `CAP`; with
`CAP = 128` the thresholds are 96 and 115, filling to 76 % (depth 97) is
WARNING, to 91 % (depth 116) CRITICAL, draining to 10 % (depth 12) NORMAL. -/
theorem c7_backpressure_levels (π : Type) (CAP : Nat) (bus : AsyncBus π)
    (h0 : 0 < CAP) (hd : QueueDepth π bus ≤ CAP) :
    (GetBackpressureLevel π CAP bus = BackpressureLevel.NORMAL ↔
       QueueDepth π bus < BACKPRESSURE_WARNING_THRESHOLD CAP) ∧
    (GetBackpressureLevel π CAP bus = BackpressureLevel.WARNING ↔
       BACKPRESSURE_WARNING_THRESHOLD CAP ≤ QueueDepth π bus ∧
       QueueDepth π bus < BACKPRESSURE_CRITICAL_THRESHOLD CAP) ∧
    (GetBackpressureLevel π CAP bus = BackpressureLevel.CRITICAL ↔
       BACKPRESSURE_CRITICAL_THRESHOLD CAP ≤ QueueDepth π bus ∧
       QueueDepth π bus < CAP) ∧
    (GetBackpressureLevel π CAP bus = BackpressureLevel.FULL ↔
       QueueDepth π bus = CAP) ∧
    BACKPRESSURE_WARNING_THRESHOLD 128 = 96 ∧
    BACKPRESSURE_CRITICAL_THRESHOLD 128 = 115 ∧
    GetBackpressureLevel Nat 128 (busAtDepth 97) = BackpressureLevel.WARNING ∧
    GetBackpressureLevel Nat 128 (busAtDepth 116) = BackpressureLevel.CRITICAL ∧
    GetBackpressureLevel Nat 128 (busAtDepth 12) = BackpressureLevel.NORMAL := by
  have hWC : BACKPRESSURE_WARNING_THRESHOLD CAP ≤ BACKPRESSURE_CRITICAL_THRESHOLD CAP := by
    unfold BACKPRESSURE_WARNING_THRESHOLD BACKPRESSURE_CRITICAL_THRESHOLD
    omega
  have hCC : BACKPRESSURE_CRITICAL_THRESHOLD CAP < CAP := by
    unfold BACKPRESSURE_CRITICAL_THRESHOLD
    omega
  refine ⟨?_, ?_, ?_, ?_, by decide, by decide, by decide, by decide, by decide⟩ <;>
    · unfold GetBackpressureLevel
      dsimp only
      split_ifs with hA hB hC <;> simp_all <;> omega

theorem c7_backpressure_levels_witness :
    GetBackpressureLevel Nat 128 (busAtDepth 50) = BackpressureLevel.NORMAL :=
  (c7_backpressure_levels Nat 128 (busAtDepth 50) (by decide) (by decide)).1.2 (by decide)

/-- `unsubscribeEntries` fails exactly when no entry is active with the
requested id. -/
theorem unsubscribeEntries_eq_none (l : List CallbackEntry) (cid : Nat) :
    unsubscribeEntries l cid = none ↔ ∀ e ∈ l, ¬ (e.active ∧ e.id = cid) := by
  induction l with
  | nil => simp [unsubscribeEntries]
  | cons a rest ih =>
    simp only [unsubscribeEntries]
    split_ifs with h
    · simp only [List.forall_mem_cons]
      constructor
      · intro hsome
        exact absurd hsome (by simp)
      · intro hall
        exact absurd h hall.1
    · cases hr : unsubscribeEntries rest cid with
      | some l' =>
        simp only [List.forall_mem_cons]
        constructor
        · intro hx
          exact absurd hx (by simp)
        · intro hall
          have hn : unsubscribeEntries rest cid = none := ih.2 hall.2
          rw [hn] at hr
          exact absurd hr (by simp)
      | none =>
        simp only [List.forall_mem_cons]
        constructor
        · intro _
          exact ⟨h, ih.1 hr⟩
        · intro _
          trivial

/-- A successful `unsubscribeEntries` deactivates exactly the first
matching entry (clearing its callback) and keeps every other entry. -/
theorem unsubscribeEntries_eq_some (l : List CallbackEntry) (cid : Nat)
    (l' : List CallbackEntry) (h : unsubscribeEntries l cid = some l') :
    ∃ l1 e l2, l = l1 ++ e :: l2 ∧
      (∀ e' ∈ l1, ¬ (e'.active ∧ e'.id = cid)) ∧
      e.active ∧ e.id = cid ∧
      l' = l1 ++ ({ e with callback := false, active := false } : CallbackEntry) :: l2 := by
  induction l generalizing l' with
  | nil => simp [unsubscribeEntries] at h
  | cons a rest ih =>
    simp only [unsubscribeEntries] at h
    split_ifs at h with ha
    · refine ⟨[], a, rest, by simp, by simp, ha.1, ha.2, ?_⟩
      simpa using h.symm
    · cases hr : unsubscribeEntries rest cid with
      | none =>
        rw [hr] at h
        simp at h
      | some r' =>
        rw [hr] at h
        simp only [Option.some.injEq] at h
        obtain ⟨l1, e, l2, hsplit, hnone, hact, hid, hres⟩ := ih r' hr
        refine ⟨a :: l1, e, l2, by rw [hsplit, List.cons_append], ?_, hact, hid, ?_⟩
        · intro e' he'
          rcases List.mem_cons.1 he' with h1 | h1
          · subst h1; exact ha
          · exact hnone e' h1
        · rw [← h, hres, List.cons_append]

/-- **C8.** `Unsubscribe(handle)` returns `true` iff the table holds an
active entry matching `(type_index, id)`; it then deactivates exactly the
first such entry, clears its callback and decrements the slot live-count;
for every non-matching handle (including `type_index >= NMAX`) it returns
`false` and leaves the table unchanged. -/
theorem c8_unsubscribe_match (π : Type) (bus : AsyncBus π) (handle : SubscriptionHandle) :
    ((Unsubscribe π bus handle).1 = true ↔
       handle.type_index < MCCC_MAX_MESSAGE_TYPES ∧
       ∃ e ∈ (bus.callback_table handle.type_index).entries,
         e.active ∧ e.id = handle.callback_id) ∧
    ((Unsubscribe π bus handle).1 = false → (Unsubscribe π bus handle).2 = bus) ∧
    ((Unsubscribe π bus handle).1 = true →
       ∃ l1 e l2,
         (bus.callback_table handle.type_index).entries = l1 ++ e :: l2 ∧
         (∀ e' ∈ l1, ¬ (e'.active ∧ e'.id = handle.callback_id)) ∧
         e.active ∧ e.id = handle.callback_id ∧
         (Unsubscribe π bus handle).2 =
           unsubscribedBus π bus handle.type_index
             (l1 ++ ({ e with callback := false, active := false } : CallbackEntry) :: l2)) ∧
    (∀ c : Nat, 0 < c → c < U32 → sub32 c 1 = c - 1) := by
  have harith : ∀ c : Nat, 0 < c → c < U32 → sub32 c 1 = c - 1 := by
    intro c h1 h2
    unfold sub32 U32 at *
    omega
  unfold Unsubscribe
  split_ifs with hti
  · refine ⟨by simp [hti, Nat.not_lt.2 hti], by simp, by simp, harith⟩
  · cases hr : unsubscribeEntries (bus.callback_table handle.type_index).entries
        handle.callback_id with
    | none =>
      have hno := (unsubscribeEntries_eq_none _ _).1 hr
      refine ⟨?_, by simp [hr], by simp [hr], harith⟩
      simp only [hr]
      constructor
      · intro h
        simp at h
      · rintro ⟨-, e, he, hact, hid⟩
        exact absurd ⟨hact, hid⟩ (hno e he)
    | some l' =>
      obtain ⟨l1, e, l2, hsplit, hnone, hact, hid, hres⟩ :=
        unsubscribeEntries_eq_some _ _ _ hr
      refine ⟨?_, ?_, ?_, harith⟩
      · simp only [hr]
        constructor
        · intro
          exact ⟨Nat.lt_of_not_le hti, e, by rw [hsplit]; simp, hact, hid⟩
        · intro
          simp
      · simp [hr]
      · intro
        refine ⟨l1, e, l2, hsplit, hnone, hact, hid, ?_⟩
        rw [← hres]
        simp [hr, unsubscribedBus]

theorem c8_unsubscribe_match_witness :
    (Unsubscribe Nat c3Subscribed ⟨0, 1⟩).1 = true ∧
    (Unsubscribe Nat c3Subscribed ⟨0, 99⟩).1 = false ∧
    (Unsubscribe Nat c3Subscribed ⟨9, 1⟩).1 = false :=
  ⟨(c8_unsubscribe_match Nat c3Subscribed ⟨0, 1⟩).1.2 (by decide),
   by
     have h := (c8_unsubscribe_match Nat c3Subscribed ⟨0, 99⟩).1
     revert h
     decide,
   by
     have h := (c8_unsubscribe_match Nat c3Subscribed ⟨9, 1⟩).1
     revert h
     decide⟩

theorem c9_fixedvector_push_witness :
    @FixedVector.emplace_back Nat 2 ⟨[5, 6]⟩ 7 = (false, ⟨[5, 6]⟩) ∧
    @FixedVector.emplace_back Nat 2 ⟨[5]⟩ 7 = (true, ⟨[5, 7]⟩) :=
  ⟨((c9_fixedvector_push Nat 2 ⟨[5, 6]⟩ 7).1 (by decide)).1,
   ((c9_fixedvector_push Nat 2 ⟨[5]⟩ 7).2 (by decide)).1⟩

/-- `ProcessOne` preserves the ring protocol invariant, advancing the
consumer ghost position by at most one. -/
theorem processOne_inv (π : Type) (pidx : π → Nat) (k : Nat) (h1k : 1 ≤ k)
    (hk32 : k ≤ 32) (s : AsyncBus π) (P C : Nat) (h : MidWF π (2 ^ k) s P C C) :
    ∃ C', C ≤ C' ∧ C' ≤ P ∧
      MidWF π (2 ^ k) (ProcessOne π pidx (2 ^ k) s).2.1 P C' C' := by
  have hcons : s.consumer_pos = C % U32 := h.2.2.2.2.1
  rcases Nat.lt_or_ge C P with hlt | hge
  · obtain ⟨-, hwf, -, -, -, -⟩ :=
      processOneInBatch_ready π pidx k hk32 s false P C C h hlt
    refine ⟨C + 1, by omega, by omega, ?_⟩
    have hcheck : ¬ ((s.ring_buffer (bufferIndex (2 ^ k) (C % U32))).sequence ≠
        add32 (C % U32) 1) := by
      rw [bufferIndex_ghost k C hk32, h.2.2.2.2.2.1 C (Nat.le_refl C) hlt,
        add32_mod_left]
      exact fun hne => hne rfl
    unfold ProcessOne ProcessOneAtPos
    rw [hcons]
    dsimp only
    rw [if_neg hcheck]
    dsimp only
    refine consumerStore_midWF π (2 ^ k) (releasedBus π (2 ^ k) s (C % U32)) P C
      (C + 1) hwf _ rfl rfl ?_
    show add32 (C % U32) 1 = (C + 1) % U32
    exact add32_mod_left C 1
  · refine ⟨C, Nat.le_refl C, h.2.1, ?_⟩
    have hseq : (s.ring_buffer (C % 2 ^ k)).sequence = C % U32 := by
      apply h.2.2.2.2.2.2 C (by omega)
      have h2 : 1 ≤ 2 ^ k := Nat.one_le_two_pow
      omega
    have hcheck : (s.ring_buffer (bufferIndex (2 ^ k) (C % U32))).sequence ≠
        add32 (C % U32) 1 := by
      rw [bufferIndex_ghost k C hk32, hseq, add32_mod_left]
      exact mod_succ_ne C
    unfold ProcessOne ProcessOneAtPos
    rw [hcons]
    dsimp only
    rw [if_pos hcheck]
    exact h

/-- `Subscribe` touches neither the ring nor the positions. -/
theorem Subscribe_coreEq (π : Type) (bus : AsyncBus π) (ti : Nat) :
    coreEq π (Subscribe π bus ti).2 bus := by
  unfold Subscribe
  dsimp only
  rcases subscribeEntries (bus.callback_table ti).entries bus.next_callback_id
    with _ | l
  · exact ⟨rfl, rfl, rfl⟩
  · exact ⟨rfl, rfl, rfl⟩

/-- `Unsubscribe` touches neither the ring nor the positions. -/
theorem Unsubscribe_coreEq (π : Type) (bus : AsyncBus π)
    (handle : SubscriptionHandle) : coreEq π (Unsubscribe π bus handle).2 bus := by
  unfold Unsubscribe
  dsimp only
  by_cases hge : handle.type_index ≥ MCCC_MAX_MESSAGE_TYPES
  · rw [if_pos hge]
    exact ⟨rfl, rfl, rfl⟩
  · rw [if_neg hge]
    rcases unsubscribeEntries (bus.callback_table handle.type_index).entries
        handle.callback_id with _ | l
    · exact ⟨rfl, rfl, rfl⟩
    · exact ⟨rfl, rfl, rfl⟩

/-- Every reachable state satisfies the ring protocol invariant. -/
theorem reachable_WF (π : Type) (pidx : π → Nat) (k : Nat) (h1k : 1 ≤ k)
    (hk32 : k ≤ 32) (d : π) (s : AsyncBus π)
    (hs : Reachable π pidx (2 ^ k) d s) : WF π (2 ^ k) s := by
  induction hs with
  | init =>
    refine ⟨0, 0, initialBus_midWF π (2 ^ k) d ?_⟩
    have h1 : 2 ^ k ≤ 2 ^ 32 := Nat.pow_le_pow_right (by omega) hk32
    have h2 : (2 : Nat) ^ 32 = U32 := by norm_num [U32]
    omega
  | publish s payload sid ts pr _ ih =>
    obtain ⟨P, C, hwf⟩ := ih
    obtain ⟨P', -, h'⟩ := publishInternal_midWF π k h1k hk32 s payload sid ts pr P C hwf
    exact ⟨P', C, h'⟩
  | processBatch s _ ih =>
    obtain ⟨P, C, hwf⟩ := ih
    obtain ⟨n, -, -, hmid, -⟩ := ProcessBatch_inv π pidx k h1k hk32 s P C hwf
    exact ⟨P, C + n, hmid⟩
  | processOne s _ ih =>
    obtain ⟨P, C, hwf⟩ := ih
    obtain ⟨C', -, -, hmid⟩ := processOne_inv π pidx k h1k hk32 s P C hwf
    exact ⟨P, C', hmid⟩
  | setMode s mode _ ih =>
    obtain ⟨P, C, hwf⟩ := ih
    exact ⟨P, C, midWF_of_coreEq π (2 ^ k) s _ P C C ⟨rfl, rfl, rfl⟩ hwf⟩
  | setErrorCallback s cb _ ih =>
    obtain ⟨P, C, hwf⟩ := ih
    exact ⟨P, C, midWF_of_coreEq π (2 ^ k) s _ P C C ⟨rfl, rfl, rfl⟩ hwf⟩
  | resetStatistics s _ ih =>
    obtain ⟨P, C, hwf⟩ := ih
    exact ⟨P, C, midWF_of_coreEq π (2 ^ k) s _ P C C ⟨rfl, rfl, rfl⟩ hwf⟩
  | subscribe s ti _ ih =>
    obtain ⟨P, C, hwf⟩ := ih
    exact ⟨P, C, midWF_of_coreEq π (2 ^ k) s _ P C C (Subscribe_coreEq π s ti) hwf⟩
  | unsubscribe s handle _ ih =>
    obtain ⟨P, C, hwf⟩ := ih
    exact ⟨P, C,
      midWF_of_coreEq π (2 ^ k) s _ P C C (Unsubscribe_coreEq π s handle) hwf⟩

/-- **C2.** Depth invariant: in every state reachable from the initial bus
(`producer_pos = consumer_pos = 0`, slot `i` carrying `sequence = i`) by any
interleaving of publishes, batch drains, single-message drains and the
auxiliary API calls, the unsigned 32-bit difference
`producer_pos - consumer_pos` (the value `QueueDepth` returns) lies in
`[0, CAP]` — the slot-sequence check of the publish path enforces the
bound. -/
theorem c2_depth_bound (π : Type) (pidx : π → Nat) (CAP k : Nat) (d : π)
    (hCAP : CAP = 2 ^ k) (h1k : 1 ≤ k) (hk32 : k ≤ 32) (s : AsyncBus π)
    (hs : Reachable π pidx CAP d s) :
    0 ≤ QueueDepth π s ∧ QueueDepth π s ≤ CAP := by
  subst hCAP
  refine ⟨Nat.zero_le _, ?_⟩
  obtain ⟨P, C, hmid⟩ := reachable_WF π pidx k h1k hk32 d s hs
  obtain ⟨hcc, hcp, hpc, hprod, hcons, -, -⟩ := hmid
  unfold QueueDepth
  rw [hprod, hcons]
  by_cases hsmall : P - C < U32
  · rw [sub32_eq P C hcp hsmall]
    omega
  · have h2 : U32 ≤ 2 ^ k := by omega
    exact Nat.le_trans (Nat.le_of_lt (sub32_lt _ _)) h2

theorem c2_depth_bound_witness :
    (2 : Nat) = 2 ^ 1 ∧ 1 ≤ 1 ∧ (1 : Nat) ≤ 32 ∧
    Reachable Nat (fun _ => 0) 2 0 (initialBus Nat 0) ∧
    (0 ≤ QueueDepth Nat (initialBus Nat 0) ∧ QueueDepth Nat (initialBus Nat 0) ≤ 2) :=
  ⟨by decide, by decide, by decide, Reachable.init,
   c2_depth_bound Nat (fun _ => 0) 2 1 0 (by decide) (by decide) (by decide)
     (initialBus Nat 0) Reachable.init⟩

/-- The C++ `bool` a successful publish returns. -/
theorem PublishResult.ok_of_published {π : Type} (r : PublishResult π)
    (h : r.outcome = PublishOutcome.published) : r.ok = true := by
  unfold PublishResult.ok
  rw [h]
  rfl

/-- In `BARE_METAL` mode (below the overflow guard) `PublishInternal` is the
slot phase alone: no admission control runs and no statistics path is taken. -/
theorem publishInternal_bareMetal (π : Type) (CAP : Nat) (s : AsyncBus π) (pl : π)
    (sid ts : Nat) (pr : MessagePriority)
    (hbm : s.performance_mode = PerformanceMode.BARE_METAL)
    (hid : s.next_msg_id < MSG_ID_WRAP_THRESHOLD) :
    publishInternal π CAP s pl sid ts pr =
      publishSlotPhase π CAP s pl sid ts pr true := by
  have hbare : isBareMetal s.performance_mode = true := by rw [hbm]; rfl
  have hns : isNoStats s.performance_mode = true := by rw [hbm]; rfl
  unfold publishInternal
  dsimp only
  rw [if_neg (Nat.not_le.mpr hid), hbare, if_pos rfl, hns]

/-- A bare-metal run of `n` publishes on a ring with `n` free slots: every
call returns `true`, the producer ghost position advances by `n`, and the
statistics block is untouched. -/
theorem iterPublish_bareMetal (π : Type) (k : Nat) (h1k : 1 ≤ k) (hk32 : k ≤ 32)
    (prio : MessagePriority) (sid ts : Nat) (p : Nat → π) (total : Nat) :
    ∀ (n : Nat) (s : AsyncBus π) (P C : Nat),
      MidWF π (2 ^ k) s P C C →
      s.performance_mode = PerformanceMode.BARE_METAL →
      s.next_msg_id + n < MSG_ID_WRAP_THRESHOLD →
      P + n ≤ C + 2 ^ k →
      (iterPublish π (2 ^ k) prio sid ts p total n s).1 = true ∧
      MidWF π (2 ^ k) (iterPublish π (2 ^ k) prio sid ts p total n s).2 (P + n) C C ∧
      (iterPublish π (2 ^ k) prio sid ts p total n s).2.stats = s.stats ∧
      (iterPublish π (2 ^ k) prio sid ts p total n s).2.performance_mode =
        s.performance_mode := by
  intro n
  induction n with
  | zero =>
    intro s P C h hbm hov hroom
    exact ⟨rfl, h, rfl, rfl⟩
  | succ n ih =>
    intro s P C h hbm hov hroom
    have heq := publishInternal_bareMetal π (2 ^ k) s (p (total - (n + 1))) sid ts
      prio hbm (by omega)
    obtain ⟨hout, hmid, hstats, hmode, hnid⟩ :=
      publishSlotPhase_not_full π k h1k hk32 s (p (total - (n + 1))) sid ts prio true
        P C h (by omega)
    have hU64 : MSG_ID_WRAP_THRESHOLD < U64 := by decide
    have hnid2 : (publishSlotPhase π (2 ^ k) s (p (total - (n + 1))) sid ts prio
        true).bus.next_msg_id = s.next_msg_id + 1 := by
      rw [hnid]
      unfold add64
      exact Nat.mod_eq_of_lt (by omega)
    obtain ⟨ih1, ih2, ih3, ih4⟩ :=
      ih ((publishSlotPhase π (2 ^ k) s (p (total - (n + 1))) sid ts prio true).bus)
        (P + 1) C hmid (by rw [hmode]; exact hbm) (by rw [hnid2]; omega) (by omega)
    refine ⟨?_, ?_, ?_, ?_⟩
    · simp only [iterPublish]
      rw [heq, PublishResult.ok_of_published _ hout, ih1]
      rfl
    · simp only [iterPublish]
      rw [heq]
      have harr : P + (n + 1) = P + 1 + n := by omega
      rw [harr]
      exact ih2
    · simp only [iterPublish]
      rw [heq, ih3]
      exact hstats rfl
    · simp only [iterPublish]
      rw [heq, ih4]
      exact hmode

/-- **C6.** In `BARE_METAL` mode (below the message-id overflow guard) a
publish performs no priority admission check: `PublishInternal` is exactly
the slot phase, it succeeds at any priority precisely when the target ring
slot is free, and it never modifies a statistics counter; `ProcessBatch`
likewise leaves the statistics untouched.  Concretely, 1000 LOW publishes
on an empty bare-metal `CAP = 1024` bus all return `true` and leave the
statistics at zero, as does a subsequent `ProcessBatch`. -/
theorem c6_bare_metal_frame (π : Type) (pidx : π → Nat) (k : Nat) (h1k : 1 ≤ k)
    (hk32 : k ≤ 32) (s : AsyncBus π) (pl : π) (sid ts : Nat) (pr : MessagePriority)
    (hbm : s.performance_mode = PerformanceMode.BARE_METAL)
    (hid : s.next_msg_id < MSG_ID_WRAP_THRESHOLD) :
    publishInternal π (2 ^ k) s pl sid ts pr =
      publishSlotPhase π (2 ^ k) s pl sid ts pr true ∧
    ((publishInternal π (2 ^ k) s pl sid ts pr).outcome = PublishOutcome.published ↔
      (s.ring_buffer (bufferIndex (2 ^ k) s.producer_pos)).sequence =
        s.producer_pos) ∧
    (publishInternal π (2 ^ k) s pl sid ts pr).bus.stats = s.stats ∧
    (∀ P C, MidWF π (2 ^ k) s P C C →
      (ProcessBatch π pidx (2 ^ k) s).2.1.stats = s.stats) ∧
    c6Fill.1 = true ∧
    c6Fill.2.stats = zeroStatistics ∧
    (ProcessBatch Nat (fun _ => 0) (2 ^ 10) c6Fill.2).2.1.stats = zeroStatistics := by
  have ha := publishInternal_bareMetal π (2 ^ k) s pl sid ts pr hbm hid
  have hmid0 : MidWF Nat (2 ^ 10) c6Start 0 0 0 :=
    midWF_of_coreEq Nat (2 ^ 10) (initialBus Nat 0) c6Start 0 0 0 ⟨rfl, rfl, rfl⟩
      (initialBus_midWF Nat (2 ^ 10) 0 (by norm_num [U32]))
  obtain ⟨hf1, hf2, hf3, hf4⟩ :=
    iterPublish_bareMetal Nat 10 (by norm_num) (by norm_num) MessagePriority.LOW 0 0
      (fun _ => 0) 1000 1000 c6Start 0 0 hmid0 rfl (by decide) (by norm_num)
  have hfill1 : c6Fill.1 = true := hf1
  have hfill2 : c6Fill.2.stats = zeroStatistics := hf3.trans rfl
  have hfillmode : c6Fill.2.performance_mode = PerformanceMode.BARE_METAL :=
    hf4.trans rfl
  have hfillmid : MidWF Nat (2 ^ 10) c6Fill.2 1000 0 0 := hf2
  refine ⟨ha, ?_, ?_, ?_, hfill1, hfill2, ?_⟩
  · rw [ha]
    unfold publishSlotPhase
    dsimp only
    by_cases hfree : (s.ring_buffer (bufferIndex (2 ^ k) s.producer_pos)).sequence ≠
        s.producer_pos
    · rw [if_pos hfree]
      exact ⟨fun hx => PublishOutcome.noConfusion hx, fun hc => absurd hc hfree⟩
    · rw [if_neg hfree]
      exact ⟨fun _ => not_not.mp hfree, fun _ => rfl⟩
  · rw [ha]
    unfold publishSlotPhase
    dsimp only
    by_cases hfree : (s.ring_buffer (bufferIndex (2 ^ k) s.producer_pos)).sequence ≠
        s.producer_pos
    · rw [if_pos hfree]
      rfl
    · rw [if_neg hfree]
      rfl
  · intro P C hwf
    obtain ⟨n, -, -, -, hst, -, -⟩ := ProcessBatch_inv π pidx k h1k hk32 s P C hwf
    rw [hst, if_pos (Or.inl (by rw [hbm]; rfl))]
  · obtain ⟨n, -, -, -, hst, -, -⟩ :=
      ProcessBatch_inv Nat (fun _ => 0) 10 (by norm_num) (by norm_num) c6Fill.2
        1000 0 hfillmid
    have hcond : isNoStats c6Fill.2.performance_mode = true := by
      rw [hfillmode]
      rfl
    exact hst.trans (by rw [if_pos (Or.inl hcond)]; exact hfill2)

theorem c6_bare_metal_frame_witness :
    c6Start.performance_mode = PerformanceMode.BARE_METAL ∧
    c6Start.next_msg_id < MSG_ID_WRAP_THRESHOLD ∧
    ((publishInternal Nat (2 ^ 10) c6Start 0 7 0 MessagePriority.LOW).bus.stats =
        c6Start.stats ∧
      c6Fill.1 = true) :=
  ⟨rfl, by decide,
   (c6_bare_metal_frame Nat (fun _ => 0) 10 (by decide) (by decide) c6Start 0 7 0
       MessagePriority.LOW rfl (by decide)).2.2.1,
   (c6_bare_metal_frame Nat (fun _ => 0) 10 (by decide) (by decide) c6Start 0 7 0
       MessagePriority.LOW rfl (by decide)).2.2.2.2.1⟩

/-- With a message pending, one batch-loop iteration of positive fuel
consumes at least one message. -/
theorem batchLoop_pos (π : Type) (pidx : π → Nat) (k : Nat) (hk32 : k ≤ 32)
    (s : AsyncBus π) (bm : Bool) (P C Cc : Nat) (h : MidWF π (2 ^ k) s P C Cc)
    (hlt : Cc < P) (f : Nat) :
    1 ≤ (batchLoop π pidx (2 ^ k) (f + 1) s (Cc % U32) bm).1 := by
  obtain ⟨heq, -, -, -, -, -⟩ := processOneInBatch_ready π pidx k hk32 s bm P C Cc h hlt
  simp only [batchLoop, heq]
  omega

/-- **C10.** Draining an envelope whose payload discriminant has no active
callback entries (live-count zero) or is out of range (`≥ NMAX`) invokes no
callback, yet still releases the ring slot, counts toward `ProcessBatch`'s
returned drain count, and — in statistics-on modes — increments
`messages_processed`; the message is silently discarded and never counted
as a processing error or a drop. -/
theorem c10_no_subscriber_discard (π : Type) (pidx : π → Nat) (k : Nat)
    (h1k : 1 ≤ k) (hk32 : k ≤ 32) (s : AsyncBus π) (bm : Bool) (P C : Nat)
    (h : MidWF π (2 ^ k) s P C C) (hlt : C < P)
    (hnosub :
      MCCC_MAX_MESSAGE_TYPES ≤
          pidx (s.ring_buffer (bufferIndex (2 ^ k) s.consumer_pos)).envelope.payload ∨
        (s.callback_table
            (pidx (s.ring_buffer
              (bufferIndex (2 ^ k) s.consumer_pos)).envelope.payload)).count = 0) :
    DispatchMessage π pidx s
        (s.ring_buffer (bufferIndex (2 ^ k) s.consumer_pos)).envelope = [] ∧
    DispatchMessageBareMetal π pidx s
        (s.ring_buffer (bufferIndex (2 ^ k) s.consumer_pos)).envelope = [] ∧
    ProcessOneInBatch π pidx (2 ^ k) s s.consumer_pos bm =
      (true, releasedBus π (2 ^ k) s s.consumer_pos, []) ∧
    1 ≤ (ProcessBatch π pidx (2 ^ k) s).1 ∧
    (isNoStats s.performance_mode = false →
      (ProcessBatch π pidx (2 ^ k) s).2.1.stats.messages_processed =
        add64 s.stats.messages_processed (ProcessBatch π pidx (2 ^ k) s).1) ∧
    (ProcessBatch π pidx (2 ^ k) s).2.1.stats.processing_errors =
      s.stats.processing_errors ∧
    (ProcessBatch π pidx (2 ^ k) s).2.1.stats.messages_dropped =
      s.stats.messages_dropped := by
  have hcons : s.consumer_pos = C % U32 := h.2.2.2.2.1
  have hd1 : DispatchMessage π pidx s
      (s.ring_buffer (bufferIndex (2 ^ k) s.consumer_pos)).envelope = [] := by
    unfold DispatchMessage
    dsimp only
    rcases hnosub with hge | hcnt
    · rw [if_pos hge]
    · by_cases hge2 : MCCC_MAX_MESSAGE_TYPES ≤
          pidx (s.ring_buffer (bufferIndex (2 ^ k) s.consumer_pos)).envelope.payload
      · rw [if_pos hge2]
      · rw [if_neg hge2, if_pos hcnt]
  have hd2 : DispatchMessageBareMetal π pidx s
      (s.ring_buffer (bufferIndex (2 ^ k) s.consumer_pos)).envelope = [] := by
    unfold DispatchMessageBareMetal
    dsimp only
    rcases hnosub with hge | hcnt
    · rw [if_pos hge]
    · by_cases hge2 : MCCC_MAX_MESSAGE_TYPES ≤
          pidx (s.ring_buffer (bufferIndex (2 ^ k) s.consumer_pos)).envelope.payload
      · rw [if_pos hge2]
      · rw [if_neg hge2, if_pos hcnt]
  have hev : dispatchedEvents π pidx (2 ^ k) s (C % U32) bm = [] := by
    unfold dispatchedEvents
    dsimp only
    rw [← hcons]
    cases bm
    · exact hd1
    · exact hd2
  obtain ⟨heq, -, -, -, -, -⟩ := processOneInBatch_ready π pidx k hk32 s bm P C C h hlt
  have h2 : ProcessOneInBatch π pidx (2 ^ k) s s.consumer_pos bm =
      (true, releasedBus π (2 ^ k) s s.consumer_pos, []) := by
    rw [hcons, heq, hev]
  have hP1 : (ProcessBatch π pidx (2 ^ k) s).1 =
      (batchLoop π pidx (2 ^ k) BATCH_PROCESS_SIZE s s.consumer_pos
        (isBareMetal s.performance_mode)).1 := by
    unfold ProcessBatch
    dsimp only
    split_ifs <;> rfl
  have hpos : 1 ≤ (ProcessBatch π pidx (2 ^ k) s).1 := by
    rw [hP1, hcons]
    have hbp : BATCH_PROCESS_SIZE = 1023 + 1 := rfl
    rw [hbp]
    exact batchLoop_pos π pidx k hk32 s (isBareMetal s.performance_mode) P C C h hlt 1023
  obtain ⟨n, hn1, hcount, hmid, hst, hprod, hmode⟩ :=
    ProcessBatch_inv π pidx k h1k hk32 s P C h
  have hn0 : ¬ n = 0 := by
    rw [hcount] at hpos
    omega
  refine ⟨hd1, hd2, h2, hpos, ?_, ?_, ?_⟩
  · intro hns
    have hcond : ¬ (isNoStats s.performance_mode = true ∨ n = 0) := by
      rw [hns]
      simp only [Bool.false_eq_true, false_or]
      exact hn0
    rw [hcount, hst, if_neg hcond]
  · rw [hst]
    split_ifs <;> rfl
  · rw [hst]
    split_ifs <;> rfl

theorem c10_no_subscriber_discard_witness :
    MidWF Nat (2 ^ 3) c10Bus 1 0 0 ∧ (0 : Nat) < 1 ∧
    (c10Bus.callback_table 0).count = 0 ∧
    (DispatchMessage Nat (fun _ => 0) c10Bus
        (c10Bus.ring_buffer (bufferIndex (2 ^ 3) c10Bus.consumer_pos)).envelope = [] ∧
      1 ≤ (ProcessBatch Nat (fun _ => 0) (2 ^ 3) c10Bus).1) := by
  have h0 := initialBus_midWF Nat (2 ^ 3) 0 (by norm_num [U32])
  have hmid : MidWF Nat (2 ^ 3) c10Bus 1 0 0 :=
    (publishSlotPhase_not_full Nat 3 (by norm_num) (by norm_num) (initialBus Nat 0)
      5 7 0 MessagePriority.MEDIUM false 0 0 h0 (by norm_num)).2.1
  refine ⟨hmid, by decide, rfl, ?_, ?_⟩
  · exact (c10_no_subscriber_discard Nat (fun _ => 0) 3 (by decide) (by decide)
      c10Bus false 1 0 hmid (by decide) (Or.inr rfl)).1
  · exact (c10_no_subscriber_discard Nat (fun _ => 0) 3 (by decide) (by decide)
      c10Bus false 1 0 hmid (by decide) (Or.inr rfl)).2.2.2.1

end MCCC
